import Mathlib

/-!
Verification of the ZooKeeper agent check (`checks.d/zk.py`).

The Python source is shallowly embedded: string-processing helpers mirror the
Python string methods used by the check (`readline`, `strip`, `split`,
`replace`, `int()`, `long(_, 16)`); `parse_stat`, `parse_mntr`,
`set_instance_status` and the body of `check` are translated function by
function.  Fallible Python code (statements that can raise) is modelled with
`Except PyExc`.
-/

set_option maxRecDepth 200000

namespace ZK

/-- Exceptions that the embedded Python code can raise. -/
inductive PyExc where
  | valueError
  | structError
  | keyError
  | attrError
  | typeError
  | nameError
  | zkConnFailure
  deriving DecidableEq, Repr

/-- Outcomes of `_send_command`: either the response buffer, a
`ZKConnectionFailure` (socket error / timeout), or the generic `Exception`
raised when the read-iteration cap is exceeded (carrying `buf.tell()`). -/
inductive SendErr where
  | connFailure
  | overrun (bytesRead : Nat)
  deriving DecidableEq, Repr

/-! ## Python string primitives -/

/-- The characters stripped by Python's `str.strip()`. -/
def pyIsSpace (c : Char) : Bool :=
  c = ' ' || c = '\t' || c = '\n' || c = '\r' || c = '\x0b' || c = '\x0c'

/-- `StringIO.readline`: the first line including its trailing newline (if
present), together with the rest of the buffer. -/
def pyReadline : List Char → List Char × List Char
  | [] => ([], [])
  | c :: cs =>
    if c = '\n' then ([c], cs)
    else
      let p := pyReadline cs
      (c :: p.1, p.2)

theorem pyReadline_append (buf : List Char) :
    (pyReadline buf).1 ++ (pyReadline buf).2 = buf := by
  induction buf with
  | nil => rfl
  | cons c cs ih =>
    by_cases h : c = '\n' <;> simp [pyReadline, h, ih]

theorem pyReadline_snd_length_lt (buf : List Char) (h : buf ≠ []) :
    (pyReadline buf).2.length < buf.length := by
  induction buf with
  | nil => exact absurd rfl h
  | cons c cs ih =>
    by_cases hc : c = '\n'
    · simp [pyReadline, hc]
    · rcases cs with _ | ⟨d, ds⟩
      · simp [pyReadline, hc]
      · have := ih (by simp)
        simp only [pyReadline, hc, if_false]
        simpa using Nat.lt_succ_of_lt this

theorem length_dropWhile_le (p : Char → Bool) (l : List Char) :
    (l.dropWhile p).length ≤ l.length := by
  induction l with
  | nil => simp
  | cons c cs ih =>
    by_cases h : p c
    · simp only [List.dropWhile_cons, h, if_true]
      exact Nat.le_succ_of_le ih
    · simp [List.dropWhile_cons, h]

/-- `str.strip()` (both ends, default whitespace). -/
def pyStrip (l : List Char) : List Char :=
  ((l.dropWhile pyIsSpace).reverse.dropWhile pyIsSpace).reverse

/-- `str.lower()` (ASCII). -/
def pyLower (l : List Char) : List Char := l.map Char.toLower

/-- `str.split(sep)` with an explicit single-character separator: splits on
every occurrence, keeping empty parts. -/
def pySplitOn (sep : Char) : List Char → List (List Char)
  | [] => [[]]
  | c :: cs =>
    if c = sep then [] :: pySplitOn sep cs
    else
      match pySplitOn sep cs with
      | [] => [[c]]
      | p :: ps => (c :: p) :: ps

/-- `str.split()` with no argument (fuel-indexed worker; any fuel at least
the length of the input gives the splitting itself). -/
def pySplitWsF : Nat → List Char → List (List Char)
  | _, [] => []
  | 0, _ :: _ => []
  | fuel + 1, c :: cs =>
    if pyIsSpace c then pySplitWsF fuel cs
    else (c :: cs.takeWhile (fun x => !pyIsSpace x)) ::
      pySplitWsF fuel (cs.dropWhile (fun x => !pyIsSpace x))

/-- `str.split()` with no argument: split on whitespace runs, dropping empty
parts. -/
def pySplitWs (l : List Char) : List (List Char) := pySplitWsF l.length l

theorem pySplitWsF_irrel (f1 : Nat) : ∀ (f2 : Nat) (l : List Char),
    l.length ≤ f1 → l.length ≤ f2 → pySplitWsF f1 l = pySplitWsF f2 l := by
  induction f1 with
  | zero =>
    intro f2 l h1 _
    rcases l with _ | ⟨c, cs⟩
    · cases f2 <;> rfl
    · simp at h1
  | succ g1 ih =>
    intro f2 l h1 h2
    rcases l with _ | ⟨c, cs⟩
    · cases f2 <;> rfl
    · rcases f2 with _ | g2
      · simp at h2
      · simp only [pySplitWsF]
        have hcs : cs.length ≤ g1 := by simpa using h1
        have hcs2 : cs.length ≤ g2 := by simpa using h2
        have hd : (cs.dropWhile (fun x => !pyIsSpace x)).length ≤ cs.length :=
          length_dropWhile_le _ _
        rw [ih g2 cs hcs hcs2, ih g2 _ (le_trans hd hcs) (le_trans hd hcs2)]

theorem pySplitWs_eq (c : Char) (cs : List Char) :
    pySplitWs (c :: cs) =
      if pyIsSpace c then pySplitWs cs
      else (c :: cs.takeWhile (fun x => !pyIsSpace x)) ::
        pySplitWs (cs.dropWhile (fun x => !pyIsSpace x)) := by
  show pySplitWsF (cs.length + 1) (c :: cs) = _
  simp only [pySplitWsF]
  rw [pySplitWsF_irrel cs.length cs.length cs (Nat.le_refl _) (Nat.le_refl _),
    pySplitWsF_irrel cs.length (cs.dropWhile (fun x => !pyIsSpace x)).length
      (cs.dropWhile (fun x => !pyIsSpace x)) (length_dropWhile_le _ _) (Nat.le_refl _)]
  rfl

/-- `.replace('zk', 'zookeeper')`: every leftmost, non-overlapping occurrence
of the substring `zk`. -/
def replaceZk : List Char → List Char
  | [] => []
  | 'z' :: 'k' :: cs => 'z' :: 'o' :: 'o' :: 'k' :: 'e' :: 'e' :: 'p' :: 'e' :: 'r' :: replaceZk cs
  | c :: cs => c :: replaceZk cs

/-- `.replace('_', '.')`: every underscore becomes a period. -/
def replaceUnderscore : List Char → List Char
  | [] => []
  | '_' :: cs => '.' :: replaceUnderscore cs
  | c :: cs => c :: replaceUnderscore cs

def isAsciiDigit (c : Char) : Bool := '0' ≤ c && c ≤ '9'

/-- Numeric value of a run of decimal digits. -/
def digitsToNat (l : List Char) : Nat :=
  l.foldl (fun n c => n * 10 + (c.toNat - 48)) 0

/-- Python `int(s)` / `long(s)` on a string: strip whitespace, optional sign,
then a nonempty run of decimal digits; anything else raises `ValueError`. -/
def pyInt (l : List Char) : Except PyExc Int :=
  match pyStrip l with
  | '+' :: ds =>
    if ds ≠ [] ∧ ds.all isAsciiDigit then .ok (digitsToNat ds) else .error .valueError
  | '-' :: ds =>
    if ds ≠ [] ∧ ds.all isAsciiDigit then .ok (-(digitsToNat ds : Int)) else .error .valueError
  | ds =>
    if ds ≠ [] ∧ ds.all isAsciiDigit then .ok (digitsToNat ds) else .error .valueError

def isHexDigit (c : Char) : Bool :=
  ('0' ≤ c && c ≤ '9') || ('a' ≤ c && c ≤ 'f') || ('A' ≤ c && c ≤ 'F')

def hexDigitVal (c : Char) : Nat :=
  if '0' ≤ c ∧ c ≤ '9' then c.toNat - 48
  else if 'a' ≤ c ∧ c ≤ 'f' then c.toNat - 87
  else c.toNat - 55

def hexToNat (l : List Char) : Nat :=
  l.foldl (fun n c => n * 16 + hexDigitVal c) 0

/-- An optional `0x`/`0X` prefix, accepted by `long(s, 16)`. -/
def stripHexPrefix : List Char → List Char
  | '0' :: 'x' :: ds => ds
  | '0' :: 'X' :: ds => ds
  | ds => ds

/-- Python `long(s, 16)`: strip whitespace, optional sign, optional `0x`,
then a nonempty run of hex digits. -/
def pyIntHex (l : List Char) : Except PyExc Int :=
  let s := pyStrip l
  let sr : Int × List Char :=
    match s with
    | '+' :: r => (1, r)
    | '-' :: r => (-1, r)
    | r => (1, r)
  let ds := stripHexPrefix sr.2
  if ds ≠ [] ∧ ds.all isHexDigit then .ok (sr.1 * hexToNat ds) else .error .valueError

/-- Byte-wise string comparison as in Python 2 (`cmp` on `str`). -/
def pyStrCmp : List Char → List Char → Ordering
  | [], [] => .eq
  | [], _ :: _ => .lt
  | _ :: _, [] => .gt
  | a :: as, b :: bs =>
    match compare a.toNat b.toNat with
    | .eq => pyStrCmp as bs
    | o => o

/-- Python tuple comparison `(a1,a2,a3) >= (b1,b2,b3)` on string triples
(lexicographic over byte-wise string comparison). -/
def pyTuple3GE (a b : List Char × List Char × List Char) : Bool :=
  match pyStrCmp a.1 b.1 with
  | .lt => false
  | .gt => true
  | .eq =>
    match pyStrCmp a.2.1 b.2.1 with
    | .lt => false
    | .gt => true
    | .eq => pyStrCmp a.2.2 b.2.2 ≠ Ordering.lt

/-! ## The version-line regular expression

`re.compile(r'Zookeeper version: ([^.]+)\.([^.]+)\.([^-]+)', flags=re.I)`,
used via `.match` (anchored at the start, trailing input ignored). -/

/-- Case-insensitive literal prefix match; returns the rest of the input. -/
def ciPrefixDrop : List Char → List Char → Option (List Char)
  | [], rest => some rest
  | _ :: _, [] => none
  | p :: ps, c :: cs =>
    if c.toLower = p.toLower then ciPrefixDrop ps cs else none

/-- `version_pattern.match(line)`: the three captured groups, or `none`. -/
def matchVersion (line : List Char) : Option (List Char × List Char × List Char) :=
  match ciPrefixDrop "Zookeeper version: ".data line with
  | none => none
  | some rest =>
    let g1 := rest.takeWhile (fun c => c ≠ '.')
    let r1 := rest.dropWhile (fun c => c ≠ '.')
    if g1 = [] then none
    else
      match r1 with
      | '.' :: r2 =>
        let g2 := r2.takeWhile (fun c => c ≠ '.')
        let r3 := r2.dropWhile (fun c => c ≠ '.')
        if g2 = [] then none
        else
          match r3 with
          | '.' :: r4 =>
            let g3 := r4.takeWhile (fun c => c ≠ '-')
            if g3 = [] then none else some (g1, g2, g3)
          | _ => none
      | _ => none

/-! ## parse_stat -/

/-- The tuple returned by `parse_stat`; the absent (`None`) fields of the
unparsable-version sentinel `(None, None, "inactive", None)` are `Option`s. -/
structure StatResult where
  metrics : Option (List (String × Int))
  tags : Option (List String)
  mode : String
  version : Option String
  deriving DecidableEq, Repr

/-- One `_, value = buf.readline().split(':')` step: reads a line and
requires exactly one `:` in it (otherwise the 2-tuple unpacking raises
`ValueError`); returns the part after the colon and the rest of the buffer. -/
def readColonValue (buf : List Char) : Except PyExc (List Char × List Char) :=
  let p := pyReadline buf
  match pySplitOn ':' p.1 with
  | [_, v] => .ok (v, p.2)
  | _ => .error .valueError

/-- The client-connection counting loop, fuel-indexed (any fuel at least the
buffer length computes the loop). -/
def countClientsF : Nat → List Char → Nat × List Char
  | _, [] => (0, [])
  | 0, _ :: _ => (0, [])
  | fuel + 1, c :: cs =>
    let p := pyReadline (c :: cs)
    if pyStrip p.1 = [] then (0, p.2)
    else
      let q := countClientsF fuel p.2
      (q.1 + 1, q.2)

/-- The client-connection counting loop: reads and counts stripped-nonempty
lines until a stripped-empty line (or end of buffer); returns the count and
the rest of the buffer. -/
def countClients (buf : List Char) : Nat × List Char := countClientsF buf.length buf

theorem countClientsF_irrel (f1 : Nat) : ∀ (f2 : Nat) (l : List Char),
    l.length ≤ f1 → l.length ≤ f2 → countClientsF f1 l = countClientsF f2 l := by
  induction f1 with
  | zero =>
    intro f2 l h1 _
    rcases l with _ | ⟨c, cs⟩
    · cases f2 <;> rfl
    · simp at h1
  | succ g1 ih =>
    intro f2 l h1 h2
    rcases l with _ | ⟨c, cs⟩
    · cases f2 <;> rfl
    · rcases f2 with _ | g2
      · simp at h2
      · simp only [countClientsF]
        have hlt : (pyReadline (c :: cs)).2.length < (c :: cs).length :=
          pyReadline_snd_length_lt _ (by simp)
        have ha : (pyReadline (c :: cs)).2.length ≤ g1 :=
          Nat.lt_succ_iff.1 (lt_of_lt_of_le hlt h1)
        have hb : (pyReadline (c :: cs)).2.length ≤ g2 :=
          Nat.lt_succ_iff.1 (lt_of_lt_of_le hlt h2)
        rw [ih g2 _ ha hb]

theorem countClients_cons (c : Char) (cs : List Char) :
    countClients (c :: cs) =
      if pyStrip (pyReadline (c :: cs)).1 = [] then (0, (pyReadline (c :: cs)).2)
      else ((countClients (pyReadline (c :: cs)).2).1 + 1,
        (countClients (pyReadline (c :: cs)).2).2) := by
  show countClientsF (cs.length + 1) (c :: cs) = _
  simp only [countClientsF]
  have hlt : (pyReadline (c :: cs)).2.length < (c :: cs).length :=
    pyReadline_snd_length_lt _ (by simp)
  rw [countClientsF_irrel cs.length (pyReadline (c :: cs)).2.length
    (pyReadline (c :: cs)).2 (Nat.lt_succ_iff.1 (by simpa using hlt)) (Nat.le_refl _)]
  rfl

/-- `for line in buf` on a `StringIO`: the remaining lines, each including
its trailing newline (the last may lack one). -/
def pyLines : List Char → List (List Char)
  | [] => []
  | c :: cs =>
    if c = '\n' then ['\n'] :: pyLines cs
    else
      match pyLines cs with
      | [] => [[c]]
      | l :: ls => (c :: l) :: ls

/-- `l_min, l_avg, l_max = [int(v) for v in value.strip().split('/')]`. -/
def parseLatency (v : List Char) : Except PyExc (Int × Int × Int) :=
  match pySplitOn '/' (pyStrip v) with
  | [a, b, c] =>
    match pyInt a, pyInt b, pyInt c with
    | .ok x, .ok y, .ok z => .ok (x, y, z)
    | _, _, _ => .error .valueError
  | _ => .error .valueError

/-- Reinterpret the low 32 bits as a big-endian signed 32-bit two's-complement
integer (`struct.unpack('>i', ...)`). -/
def toSigned32 (n : Nat) : Int :=
  if n < 2 ^ 31 then (n : Int) else (n : Int) - 2 ^ 32

/-- `struct.pack('>q', z)` followed by unpacking the high and low 4 bytes as
signed 32-bit ints; `struct.error` when `z` is out of signed-64-bit range. -/
def zxidSplit (z : Int) : Except PyExc (Int × Int) :=
  if z < -(2 ^ 63) ∨ (2 ^ 63 : Int) ≤ z then .error .structError
  else
    let bits := (z % (2 ^ 64 : Int)).toNat
    .ok (toSigned32 (bits / 2 ^ 32), toSigned32 (bits % 2 ^ 32))

/-- `ZookeeperCheck.parse_stat`. -/
def parse_stat (buf : String) : Except PyExc StatResult :=
  let p0 := pyReadline buf.data
  match matchVersion p0.1 with
  | none => .ok ⟨none, none, "inactive", none⟩
  | some (g1, g2, g3) =>
    let has_connections_val := pyTuple3GE (g1, g2, g3) ("3".data, "4".data, "4".data)
    let version := String.mk g1 ++ "." ++ String.mk g2 ++ "." ++ String.mk g3
    let p1 := pyReadline p0.2
    let cc := countClients p1.2
    match readColonValue cc.2 with
    | .error e => .error e
    | .ok (latV, r4) =>
      match parseLatency latV with
      | .error e => .error e
      | .ok (lmin, lavg, lmax) =>
        match readColonValue r4 with
        | .error e => .error e
        | .ok (recvV, r5) =>
          match pyInt (pyStrip recvV) with
          | .error e => .error e
          | .ok recvN =>
            match readColonValue r5 with
            | .error e => .error e
            | .ok (sentV, r6) =>
              match pyInt (pyStrip sentV) with
              | .error e => .error e
              | .ok sentN =>
                let connStep : Except PyExc (Int × List Char) :=
                  if has_connections_val then
                    match readColonValue r6 with
                    | .error e => .error e
                    | .ok (connV, r7) =>
                      match pyInt (pyStrip connV) with
                      | .error e => .error e
                      | .ok n => .ok (n, r7)
                  else .ok ((cc.1 : Int), r6)
                match connStep with
                | .error e => .error e
                | .ok (connN, r7) =>
                  match readColonValue r7 with
                  | .error e => .error e
                  | .ok (outV, r8) =>
                    match pyInt (pyStrip outV) with
                    | .error e => .error e
                    | .ok outN =>
                      match readColonValue r8 with
                      | .error e => .error e
                      | .ok (zxV, r9) =>
                        match pyIntHex (pyStrip zxV) with
                        | .error e => .error e
                        | .ok zx =>
                          match zxidSplit zx with
                          | .error e => .error e
                          | .ok (epoch, count) =>
                            match readColonValue r9 with
                            | .error e => .error e
                            | .ok (modeV, r10) =>
                              let mode := String.mk (pyLower (pyStrip modeV))
                              match readColonValue r10 with
                              | .error e => .error e
                              | .ok (nodeV, _) =>
                                match pyInt (pyStrip nodeV) with
                                | .error e => .error e
                                | .ok nodeN =>
                                  .ok ⟨some [("zookeeper.latency.min", lmin),
                                        ("zookeeper.latency.avg", lavg),
                                        ("zookeeper.latency.max", lmax),
                                        ("zookeeper.bytes_received", recvN),
                                        ("zookeeper.bytes_sent", sentN),
                                        ("zookeeper.connections", connN),
                                        ("zookeeper.bytes_outstanding", outN),
                                        ("zookeeper.outstanding_requests", outN),
                                        ("zookeeper.zxid.epoch", epoch),
                                        ("zookeeper.zxid.count", count),
                                        ("zookeeper.nodes", nodeN)],
                                    some ["mode:" ++ mode], mode, some version⟩

/-! ## parse_mntr -/

/-- The tuple returned by `parse_mntr`; `metrics` is `none` exactly in the
inactive case. -/
structure MntrResult where
  metrics : Option (List (String × Int))
  state : String
  deriving DecidableEq, Repr

def mntrSentinel : String := "This ZooKeeper instance is not currently serving requests"

/-- `data[0].replace('zk', 'zookeeper').replace('_', '.')`. -/
def mntrKeyTransform (k : List Char) : List Char :=
  replaceUnderscore (replaceZk k)

/-- `metrics[name] = value` on a Python dict, modelled as an association list
in insertion order. -/
def dictSet (m : List (String × String)) (k v : String) : List (String × String) :=
  if m.any (fun p => p.1 = k) then
    m.map (fun p => if p.1 = k then (k, v) else p)
  else m ++ [(k, v)]

/-- The `for line in buf` loop of `parse_mntr`: builds the metrics dict; a
line that does not split into exactly two tokens raises (the `raise`
statement itself evaluates `data.join(' ')`, an `AttributeError`). -/
def buildMntr : List (List Char) → List (String × String) →
    Except PyExc (List (String × String))
  | [], acc => .ok acc
  | line :: rest, acc =>
    match pySplitWs line with
    | [k, v] =>
      buildMntr rest (dictSet acc (String.mk (mntrKeyTransform k)) (String.mk v))
    | _ => .error .attrError

/-- `metrics.pop(key)` (no default): the removed value and the remaining
dict, or `none` (→ `KeyError`). -/
def dictPop (m : List (String × String)) (k : String) :
    Option (String × List (String × String)) :=
  match m.find? (fun p => p.1 = k) with
  | none => none
  | some p => some (p.2, m.filter (fun q => q.1 ≠ k))

/-- `ZookeeperCheck.parse_mntr`. -/
def parse_mntr (buf : String) : Except PyExc MntrResult :=
  let p0 := pyReadline buf.data
  if p0.1 = mntrSentinel.data then .ok ⟨none, "inactive"⟩
  else
    match buildMntr (pyLines p0.2) [] with
    | .error e => .error e
    | .ok m =>
      match dictPop m "zookeeper.server.state" with
      | none => .error .keyError
      | some (sv, m2) =>
        let state := String.mk (pyLower sv.data)
        match m2.mapM (fun p => (pyInt p.2.data).map (fun n => (p.1, n))) with
        | .error e => .error e
        | .ok mInt => .ok ⟨some mInt, state⟩

/-! ## LooseVersion (distutils) and the mntr gate -/

/-- A parsed `LooseVersion` component: either an integer or a string
(Python 2 mixed comparison orders every int below every str). -/
inductive PyObj where
  | int (n : Nat)
  | str (s : List Char)
  deriving DecidableEq, Repr

def isLowerAlpha (c : Char) : Bool := 'a' ≤ c && c ≤ 'z'

def isLVOther (c : Char) : Bool := !isAsciiDigit c && !isLowerAlpha c && c ≠ '.'

/-- `LooseVersion.parse`, fuel-indexed worker. -/
def lvScanF : Nat → List Char → List PyObj
  | _, [] => []
  | 0, _ :: _ => []
  | fuel + 1, c :: cs =>
    if isAsciiDigit c then
      .int (digitsToNat (c :: cs.takeWhile isAsciiDigit)) :: lvScanF fuel (cs.dropWhile isAsciiDigit)
    else if isLowerAlpha c then
      .str (c :: cs.takeWhile isLowerAlpha) :: lvScanF fuel (cs.dropWhile isLowerAlpha)
    else if c = '.' then lvScanF fuel cs
    else .str (c :: cs.takeWhile isLVOther) :: lvScanF fuel (cs.dropWhile isLVOther)

/-- `LooseVersion.parse`: split into runs of digits, runs of lowercase
letters, and runs of other characters, dropping `.` separators; digit runs
become ints. -/
def lvScan (l : List Char) : List PyObj := lvScanF l.length l

theorem lvScanF_irrel (f1 : Nat) : ∀ (f2 : Nat) (l : List Char),
    l.length ≤ f1 → l.length ≤ f2 → lvScanF f1 l = lvScanF f2 l := by
  induction f1 with
  | zero =>
    intro f2 l h1 _
    rcases l with _ | ⟨c, cs⟩
    · cases f2 <;> rfl
    · simp at h1
  | succ g1 ih =>
    intro f2 l h1 h2
    rcases l with _ | ⟨c, cs⟩
    · cases f2 <;> rfl
    · rcases f2 with _ | g2
      · simp at h2
      · simp only [lvScanF]
        have hcs : cs.length ≤ g1 := by simpa using h1
        have hcs2 : cs.length ≤ g2 := by simpa using h2
        rw [ih g2 (cs.dropWhile isAsciiDigit)
            (le_trans (length_dropWhile_le _ _) hcs) (le_trans (length_dropWhile_le _ _) hcs2),
          ih g2 (cs.dropWhile isLowerAlpha)
            (le_trans (length_dropWhile_le _ _) hcs) (le_trans (length_dropWhile_le _ _) hcs2),
          ih g2 cs hcs hcs2,
          ih g2 (cs.dropWhile isLVOther)
            (le_trans (length_dropWhile_le _ _) hcs) (le_trans (length_dropWhile_le _ _) hcs2)]

theorem lvScan_eq (c : Char) (cs : List Char) :
    lvScan (c :: cs) =
      if isAsciiDigit c then
        .int (digitsToNat (c :: cs.takeWhile isAsciiDigit)) :: lvScan (cs.dropWhile isAsciiDigit)
      else if isLowerAlpha c then
        .str (c :: cs.takeWhile isLowerAlpha) :: lvScan (cs.dropWhile isLowerAlpha)
      else if c = '.' then lvScan cs
      else .str (c :: cs.takeWhile isLVOther) :: lvScan (cs.dropWhile isLVOther) := by
  show lvScanF (cs.length + 1) (c :: cs) = _
  simp only [lvScanF]
  rw [lvScanF_irrel cs.length (cs.dropWhile isAsciiDigit).length
      (cs.dropWhile isAsciiDigit) (length_dropWhile_le _ _) (Nat.le_refl _),
    lvScanF_irrel cs.length (cs.dropWhile isLowerAlpha).length
      (cs.dropWhile isLowerAlpha) (length_dropWhile_le _ _) (Nat.le_refl _),
    lvScanF_irrel cs.length cs.length cs (Nat.le_refl _) (Nat.le_refl _),
    lvScanF_irrel cs.length (cs.dropWhile isLVOther).length
      (cs.dropWhile isLVOther) (length_dropWhile_le _ _) (Nat.le_refl _)]
  rfl

/-- Python 2 `cmp` on LooseVersion components. -/
def pyObjCmp : PyObj → PyObj → Ordering
  | .int a, .int b => compare a b
  | .int _, .str _ => .lt
  | .str _, .int _ => .gt
  | .str a, .str b => pyStrCmp a b

/-- Python 2 `cmp` on lists, element-wise with prefix rule. -/
def pyListCmp : List PyObj → List PyObj → Ordering
  | [], [] => .eq
  | [], _ :: _ => .lt
  | _ :: _, [] => .gt
  | a :: as, b :: bs =>
    match pyObjCmp a b with
    | .eq => pyListCmp as bs
    | o => o

/-- `LooseVersion(a) > LooseVersion(b)`. -/
def looseVersionGT (a b : String) : Bool :=
  pyListCmp (lvScan a.data) (lvScan b.data) = Ordering.gt

/-- The mntr capability gate of `check`:
`zk_version and LooseVersion(zk_version) > LooseVersion("3.4.0")`. -/
def supportsMntr : Option String → Bool
  | none => false
  | some v => v ≠ "" && looseVersionGT v "3.4.0"

/-! ## _send_command's read loop -/

/-- The read loop of `_send_command`, with the peer modelled as the sequence
of chunks successive `sock.recv` calls return (an empty chunk = peer closed).
Arguments mirror the Python locals `chunk`, `buf`, `num_reads`. -/
def sendLoop (peer : Nat → String) (chunk buf : String) (numReads : Nat) :
    Except SendErr String :=
  if chunk.isEmpty then .ok buf
  else if 10000 < numReads then .error (.overrun buf.length)
  else sendLoop peer (peer numReads) (buf ++ peer numReads) (numReads + 1)
termination_by 10001 - numReads

/-- `_send_command` after a successful connect and send: the initial
`sock.recv` followed by the read loop. -/
def sendCommandReads (peer : Nat → String) : Except SendErr String :=
  sendLoop peer (peer 0) (peer 0) 1

/-! ## The check orchestrator -/

inductive SCStatus where
  | ok
  | warning
  | critical
  deriving DecidableEq, Repr

/-- Observable effects of one check invocation, in emission order. -/
inductive Event where
  | serviceCheck (name : String) (status : SCStatus) (message : String) (tags : List String)
  | increment (counter : String)
  | setVal (name : String) (value : String) (tags : List String)
  | gauge (name : String) (value : Int) (tags : List String)
  deriving DecidableEq, Repr

/-- The instance configuration consumed by `check`. -/
structure Instance where
  host : String := "localhost"
  port : Nat := 2181
  expected_mode : String := ""
  tags : List String := []

/-- The environment of one invocation: `socket.gethostname()` and the outcome
of `_send_command` for each of the three commands. -/
structure Env where
  hostname : String
  ruok : Except SendErr String
  stat : Except SendErr String
  mntr : Except SendErr String

def instanceStatusNames : List String :=
  ["leader", "follower", "observer", "standalone", "down", "inactive", "unknown"]

/-- The per-state presence gauges built by `set_instance_status`. -/
def instanceGauges (status : String) : List (String × Int) :=
  let sel := if instanceStatusNames.contains status then status else "unknown"
  instanceStatusNames.map (fun k =>
    ("zookeeper.instances." ++ k, if k = sel then (1 : Int) else 0))

/-- `ZookeeperCheck.set_instance_status`. -/
def set_instance_status (hostname status : String) : List Event :=
  Event.setVal "zookeeper.instances" hostname ["mode:" ++ status] ::
    (instanceGauges status).map (fun p => Event.gauge p.1 p.2 [])

def scTags (inst : Instance) : List String :=
  ["host:" ++ inst.host, "port:" ++ toString inst.port]

/-- The `ruok` block of `check` (try/except/else/finally).  A
`ZKConnectionFailure` increments the timeout counter, emits the CRITICAL
service check from the `finally`, and re-raises.  Any other exception from
`_send_command` escapes the `except ZKConnectionFailure` clause, and the
`finally` then reads the unbound local `status` — a `NameError`. -/
def ruokBlock (inst : Instance) (r : Except SendErr String) :
    List Event × Except PyExc Unit :=
  match r with
  | .error .connFailure =>
    ([Event.increment "zookeeper.timeouts",
      Event.serviceCheck "zookeeper.ruok" .critical "No response from `ruok` command"
        (scTags inst)], .error .zkConnFailure)
  | .error (.overrun _) => ([], .error .nameError)
  | .ok content =>
    let ruok := String.mk (pyReadline content.data).1
    let status := if ruok = "imok" then SCStatus.ok else SCStatus.warning
    ([Event.serviceCheck "zookeeper.ruok" status ("Response from the server: " ++ ruok)
        (scTags inst)], .ok ())

/-- The `stat` block of `check`: the two `except` clauses classify only
failures of `_send_command` itself; `parse_stat` runs in the `else` clause,
so its exceptions propagate.  Returns the events and either the propagated
exception or `zk_version`. -/
def statBlock (inst : Instance) (hostname : String) (s : Except SendErr String) :
    List Event × Except PyExc (Option String) :=
  match s with
  | .error .connFailure =>
    (Event.increment "zookeeper.timeouts" :: set_instance_status hostname "down", .ok none)
  | .error (.overrun _) =>
    (Event.increment "zookeeper.datadog_client_exception" ::
      set_instance_status hostname "unknown", .ok none)
  | .ok content =>
    match parse_stat content with
    | .error e => ([], .error e)
    | .ok res =>
      let gaugesStep : Except PyExc (List Event) :=
        if res.mode ≠ "inactive" then
          match res.metrics with
          | some ms =>
            .ok (ms.map (fun p => Event.gauge p.1 p.2 (inst.tags ++ res.tags.getD [])))
          | none => .error .typeError
        else .ok []
      match gaugesStep with
      | .error e => ([], .error e)
      | .ok gs =>
        let modeTag := "mode:" ++ res.mode
        let scEvents :=
          if inst.expected_mode ≠ "" then
            if res.mode = inst.expected_mode then
              [Event.serviceCheck "zookeeper.mode" .ok
                ("Server is in " ++ modeTag ++ " mode") (scTags inst)]
            else
              [Event.serviceCheck "zookeeper.mode" .critical
                ("Server is in " ++ modeTag ++ " mode but check expects " ++
                  inst.expected_mode ++ " mode") (scTags inst)]
          else []
        (gs ++ set_instance_status hostname res.mode ++ scEvents, .ok res.version)

/-- The `mntr` block of `check`: run only when the gate admits the version;
again, only `_send_command` failures are classified, `parse_mntr` runs in the
`else` clause. -/
def mntrBlock (inst : Instance) (version : Option String) (m : Except SendErr String) :
    List Event × Except PyExc Unit :=
  if supportsMntr version then
    match m with
    | .error .connFailure => ([Event.increment "zookeeper.timeouts"], .ok ())
    | .error (.overrun _) => ([Event.increment "zookeeper.datadog_client_exception"], .ok ())
    | .ok content =>
      match parse_mntr content with
      | .error e => ([], .error e)
      | .ok res =>
        if res.state ≠ "inactive" then
          match res.metrics with
          | some ms =>
            (ms.map (fun p => Event.gauge p.1 p.2 (inst.tags ++ ["mode:" ++ res.state])),
              .ok ())
          | none => ([], .error .typeError)
        else ([], .ok ())
  else ([], .ok ())

/-- `ZookeeperCheck.check`: `ruok` → `stat` → (gated) `mntr`.  The result is
the emitted events together with the check's outcome (`.error` = an exception
propagated to the caller). -/
def check (inst : Instance) (env : Env) : List Event × Except PyExc Unit :=
  let r := ruokBlock inst env.ruok
  match r.2 with
  | .error e => (r.1, .error e)
  | .ok _ =>
    let s := statBlock inst env.hostname env.stat
    match s.2 with
    | .error e => (r.1 ++ s.1, .error e)
    | .ok ver =>
      let m := mntrBlock inst ver env.mntr
      (r.1 ++ s.1 ++ m.1, m.2)

/-! ## Lemmas: line-level symbolic execution -/

theorem takeWhile_append_all {p : Char → Bool} {l : List Char} (r : List Char)
    (h : ∀ x ∈ l, p x = true) :
    (l ++ r).takeWhile p = l ++ r.takeWhile p := by
  induction l with
  | nil => simp
  | cons c cs ih =>
    have hc : p c = true := h c (by simp)
    simp only [List.cons_append, List.takeWhile_cons, hc, if_true, List.cons.injEq, true_and]
    exact ih (fun x hx => h x (by simp [hx]))

theorem dropWhile_append_all {p : Char → Bool} {l : List Char} (r : List Char)
    (h : ∀ x ∈ l, p x = true) :
    (l ++ r).dropWhile p = r.dropWhile p := by
  induction l with
  | nil => simp
  | cons c cs ih =>
    have hc : p c = true := h c (by simp)
    simp only [List.cons_append, List.dropWhile_cons, hc, if_true]
    exact ih (fun x hx => h x (by simp [hx]))

theorem append_line_assoc (label p rest : List Char) (c : Char) :
    (label ++ c :: (p ++ ['\n'])) ++ rest = label ++ c :: (p ++ '\n' :: rest) := by
  simp [List.append_assoc]

theorem pyReadline_line {l : List Char} (r : List Char) (h : '\n' ∉ l) :
    pyReadline (l ++ '\n' :: r) = (l ++ ['\n'], r) := by
  induction l with
  | nil => simp [pyReadline]
  | cons c cs ih =>
    have hc : c ≠ '\n' := by rintro rfl; exact h (by simp)
    have ih1 := ih (fun hm => h (by simp [hm]))
    simp [pyReadline, hc, ih1]

theorem pyStrip_cons_ws {c : Char} (l : List Char) (h : pyIsSpace c = true) :
    pyStrip (c :: l) = pyStrip l := by
  simp [pyStrip, List.dropWhile_cons, h]

theorem pyStrip_append_newline (l : List Char) : pyStrip (l ++ ['\n']) = pyStrip l := by
  induction l with
  | nil => rfl
  | cons c cs ih =>
    by_cases h : pyIsSpace c = true
    · rw [List.cons_append, pyStrip_cons_ws _ h, pyStrip_cons_ws _ h, ih]
    · have h' : pyIsSpace c = false := by simpa using h
      simp only [pyStrip, List.cons_append, List.dropWhile_cons, h', if_false,
        List.reverse_cons, List.reverse_append]
      simp [List.dropWhile_cons, pyIsSpace]

theorem pySplitOn_not_mem {sep : Char} {l : List Char} (h : sep ∉ l) :
    pySplitOn sep l = [l] := by
  induction l with
  | nil => rfl
  | cons c cs ih =>
    have hc : c ≠ sep := by rintro rfl; exact h (by simp)
    have ih1 := ih (fun hm => h (by simp [hm]))
    simp [pySplitOn, hc, ih1]

theorem pySplitOn_append {sep : Char} {a : List Char} (b : List Char) (h : sep ∉ a) :
    pySplitOn sep (a ++ sep :: b) = a :: pySplitOn sep b := by
  induction a with
  | nil => simp [pySplitOn]
  | cons c cs ih =>
    have hc : c ≠ sep := by rintro rfl; exact h (by simp)
    have ih1 := ih (fun hm => h (by simp [hm]))
    simp only [List.cons_append, pySplitOn, hc, if_false]
    rw [show cs.append (sep :: b) = cs ++ sep :: b from rfl, ih1]

theorem readColonValue_line {label p : List Char} (r : List Char)
    (h1 : ':' ∉ label) (h2 : ':' ∉ p) (h3 : '\n' ∉ label) (h4 : '\n' ∉ p) :
    readColonValue (label ++ ':' :: (p ++ '\n' :: r)) = .ok (p ++ ['\n'], r) := by
  have hnl2 : '\n' ∉ (label ++ ':' :: p) := by
    intro hm
    rcases List.mem_append.1 hm with hm | hm
    · exact h3 hm
    · rcases List.mem_cons.1 hm with hm | hm
      · exact absurd hm.symm (by decide)
      · exact h4 hm
  have hline : pyReadline ((label ++ ':' :: p) ++ '\n' :: r) =
      ((label ++ ':' :: p) ++ ['\n'], r) := pyReadline_line r hnl2
  have hsplit : pySplitOn ':' (label ++ ':' :: (p ++ ['\n'])) = [label, p ++ ['\n']] := by
    rw [pySplitOn_append _ h1, pySplitOn_not_mem]
    intro hm
    rcases List.mem_append.1 hm with hm | hm
    · exact h2 hm
    · simp at hm
  simp only [readColonValue, List.append_assoc, List.cons_append, List.nil_append] at hline ⊢
  rw [hline]
  simp only [List.append_assoc] at hsplit
  rw [hsplit]

/-- Joins lines with newline terminators (every line gets one). -/
def joinLinesL : List (List Char) → List Char
  | [] => []
  | l :: ls => l ++ '\n' :: joinLinesL ls

theorem joinLinesL_append (a b : List (List Char)) :
    joinLinesL (a ++ b) = joinLinesL a ++ joinLinesL b := by
  induction a with
  | nil => rfl
  | cons l ls ih => simp [joinLinesL, ih]

theorem countClients_join {cls : List (List Char)} (rest : List Char)
    (h : ∀ l ∈ cls, '\n' ∉ l ∧ pyStrip l ≠ []) :
    countClients (joinLinesL cls ++ '\n' :: rest) = (cls.length, rest) := by
  induction cls with
  | nil =>
    simp only [joinLinesL, List.nil_append]
    rw [countClients_cons]
    simp [pyReadline, pyStrip, pyIsSpace]
  | cons l ls ih =>
    obtain ⟨hnl, hst⟩ := h l (by simp)
    have hx : l ++ '\n' :: (joinLinesL ls ++ '\n' :: rest) ≠ [] := by simp
    have hread : pyReadline (l ++ '\n' :: (joinLinesL ls ++ '\n' :: rest)) =
        (l ++ ['\n'], joinLinesL ls ++ '\n' :: rest) := pyReadline_line _ hnl
    rcases hl : l ++ '\n' :: (joinLinesL ls ++ '\n' :: rest) with _ | ⟨c, cs⟩
    · simp at hl
    · have : countClients (c :: cs) = (ls.length + 1, rest) := by
        rw [countClients_cons, ← hl, hread]
        simp only [pyStrip_append_newline]
        rw [if_neg hst, ih (fun x hx => h x (by simp [hx]))]
      simpa only [joinLinesL, List.cons_append, List.append_assoc, hl] using this

/-! ## Lemmas: mntr lines and tokens -/

theorem pyLines_line {l : List Char} (rest : List Char) (h : '\n' ∉ l) :
    pyLines (l ++ '\n' :: rest) = (l ++ ['\n']) :: pyLines rest := by
  induction l with
  | nil => simp [pyLines]
  | cons c cs ih =>
    have hc : c ≠ '\n' := fun hh => h (by simp [hh])
    have ih1 := ih (fun hm => h (by simp [hm]))
    simp [pyLines, hc, ih1]

theorem pySplitWs_ws_cons {d : Char} (ds : List Char) (h : pyIsSpace d = true) :
    pySplitWs (d :: ds) = pySplitWs ds := by
  rw [pySplitWs_eq]
  simp [h]

theorem pySplitWs_nonspace_token {k : List Char} (rest : List Char) (hk : k ≠ [])
    (h : ∀ c ∈ k, pyIsSpace c = false)
    (hr : rest = [] ∨ ∃ d ds, rest = d :: ds ∧ pyIsSpace d = true) :
    pySplitWs (k ++ rest) = k :: pySplitWs rest := by
  rcases k with _ | ⟨c, cs⟩
  · exact absurd rfl hk
  · have hc : pyIsSpace c = false := h c (by simp)
    have hcs : ∀ x ∈ cs, (fun x => !pyIsSpace x) x = true := by
      intro x hx
      simp [h x (by simp [hx])]
    have htk : (cs ++ rest).takeWhile (fun x => !pyIsSpace x) = cs := by
      rw [takeWhile_append_all _ hcs]
      rcases hr with rfl | ⟨d, ds, rfl, hd⟩
      · simp
      · simp [List.takeWhile_cons, hd]
    have hdp : (cs ++ rest).dropWhile (fun x => !pyIsSpace x) = rest := by
      rw [dropWhile_append_all _ hcs]
      rcases hr with rfl | ⟨d, ds, rfl, hd⟩
      · simp
      · simp [List.dropWhile_cons, hd]
    rw [List.cons_append, pySplitWs_eq, if_neg (by simp [hc]), htk, hdp]

theorem pySplitWs_kv {k v : List Char} (hk : k ≠ []) (hv : v ≠ [])
    (h1 : ∀ c ∈ k, pyIsSpace c = false) (h2 : ∀ c ∈ v, pyIsSpace c = false) :
    pySplitWs (k ++ ' ' :: (v ++ ['\n'])) = [k, v] := by
  rw [pySplitWs_nonspace_token _ hk h1 (Or.inr ⟨' ', v ++ ['\n'], rfl, by decide⟩),
    pySplitWs_ws_cons _ (by decide),
    pySplitWs_nonspace_token _ hv h2 (Or.inr ⟨'\n', [], rfl, by decide⟩),
    pySplitWs_ws_cons _ (by decide)]
  rfl

theorem dictPop_eq_none {m : List (String × String)} {k : String}
    (h : ∀ p ∈ m, p.1 ≠ k) : dictPop m k = none := by
  have hf : m.find? (fun p => p.1 = k) = none := by
    rw [List.find?_eq_none]
    intro p hp
    simp [h p hp]
  simp [dictPop, hf]

/-! ## Lemmas: LooseVersion on numeric dotted versions -/

theorem lvScan_digit_run {ds : List Char} (rest : List Char) (h1 : ds ≠ [])
    (h2 : ∀ c ∈ ds, isAsciiDigit c = true)
    (h3 : rest = [] ∨ ∃ d more, rest = d :: more ∧ isAsciiDigit d = false) :
    lvScan (ds ++ rest) = .int (digitsToNat ds) :: lvScan rest := by
  rcases ds with _ | ⟨c, cs⟩
  · exact absurd rfl h1
  · have hc : isAsciiDigit c = true := h2 c (by simp)
    have hcs : ∀ x ∈ cs, isAsciiDigit x = true := fun x hx => h2 x (by simp [hx])
    have htk : (cs ++ rest).takeWhile isAsciiDigit = cs := by
      rw [takeWhile_append_all _ hcs]
      rcases h3 with rfl | ⟨d, more, rfl, hd⟩
      · simp
      · simp [List.takeWhile_cons, hd]
    have hdp : (cs ++ rest).dropWhile isAsciiDigit = rest := by
      rw [dropWhile_append_all _ hcs]
      rcases h3 with rfl | ⟨d, more, rfl, hd⟩
      · simp
      · simp [List.dropWhile_cons, hd]
    rw [List.cons_append, lvScan_eq, if_pos hc, htk, hdp]

theorem lvScan_dot (x : List Char) : lvScan ('.' :: x) = lvScan x := by
  rw [lvScan_eq]
  simp [show isAsciiDigit '.' = false from rfl, show isLowerAlpha '.' = false from rfl]

theorem lvScan_version {da db dc : List Char}
    (ha1 : da ≠ []) (ha2 : ∀ c ∈ da, isAsciiDigit c = true)
    (hb1 : db ≠ []) (hb2 : ∀ c ∈ db, isAsciiDigit c = true)
    (hc1 : dc ≠ []) (hc2 : ∀ c ∈ dc, isAsciiDigit c = true) :
    lvScan (da ++ '.' :: (db ++ '.' :: dc)) =
      [.int (digitsToNat da), .int (digitsToNat db), .int (digitsToNat dc)] := by
  have hdc : lvScan dc = [PyObj.int (digitsToNat dc)] := by
    have h0 := lvScan_digit_run [] hc1 hc2 (Or.inl rfl)
    simpa [show lvScan [] = ([] : List PyObj) from rfl] using h0
  rw [lvScan_digit_run _ ha1 ha2 (Or.inr ⟨'.', db ++ '.' :: dc, rfl, by decide⟩), lvScan_dot,
    lvScan_digit_run _ hb1 hb2 (Or.inr ⟨'.', dc, rfl, by decide⟩), lvScan_dot, hdc]

theorem pyListCmp_int3_gt (a b c x y z : Nat) :
    (pyListCmp [.int a, .int b, .int c] [.int x, .int y, .int z] = .gt) ↔
      (x < a ∨ (a = x ∧ (y < b ∨ (b = y ∧ z < c)))) := by
  simp only [pyListCmp, pyObjCmp]
  rcases Nat.lt_trichotomy a x with h1 | h1 | h1
  · rw [Nat.compare_eq_lt.2 h1]
    simp only
    constructor
    · intro hh
      exact absurd hh (by decide)
    · rintro (hh | ⟨rfl, _⟩)
      · omega
      · omega
  · subst h1
    rw [Nat.compare_eq_eq.2 rfl]
    simp only
    rcases Nat.lt_trichotomy b y with h2 | h2 | h2
    · rw [Nat.compare_eq_lt.2 h2]
      simp only
      constructor
      · intro hh
        exact absurd hh (by decide)
      · rintro (hh | ⟨_, hh | ⟨rfl, _⟩⟩) <;> omega
    · subst h2
      rw [Nat.compare_eq_eq.2 rfl]
      simp only
      rcases Nat.lt_trichotomy c z with h3 | h3 | h3
      · rw [Nat.compare_eq_lt.2 h3]
        constructor
        · intro hh
          exact absurd hh (by decide)
        · rintro (hh | ⟨_, hh | ⟨_, hh⟩⟩) <;> omega
      · subst h3
        rw [Nat.compare_eq_eq.2 rfl]
        constructor
        · intro hh
          exact absurd hh (by decide)
        · rintro (hh | ⟨_, hh | ⟨_, hh⟩⟩) <;> omega
      · rw [Nat.compare_eq_gt.2 h3]
        constructor
        · intro _
          exact Or.inr ⟨by trivial, Or.inr ⟨by trivial, h3⟩⟩
        · intro _
          rfl
    · rw [Nat.compare_eq_gt.2 h2]
      constructor
      · intro _
        exact Or.inr ⟨by trivial, Or.inl h2⟩
      · intro _
        rfl
  · rw [Nat.compare_eq_gt.2 h1]
    constructor
    · intro _
      exact Or.inl h1
    · intro _
      rfl

/-- The mntr gate on a numeric dotted `major.minor.patch` version string is
the strict lexicographic numeric comparison against `(3, 4, 0)`. -/
theorem supportsMntr_iff_numeric (da db dc : List Char)
    (ha1 : da ≠ []) (ha2 : ∀ c ∈ da, isAsciiDigit c = true)
    (hb1 : db ≠ []) (hb2 : ∀ c ∈ db, isAsciiDigit c = true)
    (hc1 : dc ≠ []) (hc2 : ∀ c ∈ dc, isAsciiDigit c = true) :
    supportsMntr (some (String.mk (da ++ '.' :: (db ++ '.' :: dc)))) = true ↔
      (3 < digitsToNat da ∨ (digitsToNat da = 3 ∧
        (4 < digitsToNat db ∨ (digitsToNat db = 4 ∧ 0 < digitsToNat dc)))) := by
  have hne : String.mk (da ++ '.' :: (db ++ '.' :: dc)) ≠ "" := by
    intro hh
    have h2 : da ++ '.' :: (db ++ '.' :: dc) = [] := congrArg String.data hh
    simp at h2
  simp only [supportsMntr, looseVersionGT, Bool.and_eq_true, decide_eq_true_eq]
  rw [lvScan_version ha1 ha2 hb1 hb2 hc1 hc2,
    show lvScan ['3', '.', '4', '.', '0'] =
      [PyObj.int 3, PyObj.int 4, PyObj.int 0] from rfl,
    pyListCmp_int3_gt]
  constructor
  · rintro ⟨_, hh⟩
    exact hh
  · intro hh
    exact ⟨hne, hh⟩

end ZK

namespace ZK

/-! ## Lemmas: the read loop overrun -/

theorem sendLoop_eq (peer : Nat → String) (chunk buf : String) (k : Nat) :
    sendLoop peer chunk buf k =
      if chunk.isEmpty then .ok buf
      else if 10000 < k then .error (.overrun buf.length)
      else sendLoop peer (peer k) (buf ++ peer k) (k + 1) := by
  rw [sendLoop]

theorem sendLoop_overrun_aux (peer : Nat → String) :
    ∀ (fuel k : Nat), k + fuel = 10001 →
      ∀ (chunk buf : String), chunk ≠ "" →
        (∀ i, k ≤ i → i ≤ 10000 → peer i ≠ "") →
        sendLoop peer chunk buf k =
          .error (.overrun (buf.length +
            (((List.range fuel).map (fun j => (peer (k + j)).length)).sum))) := by
  intro fuel
  induction fuel with
  | zero =>
    intro k hk chunk buf hc _
    rw [sendLoop_eq, if_neg (by simpa [String.isEmpty_iff] using hc),
      if_pos (by omega)]
    simp
  | succ n ih =>
    intro k hk chunk buf hc hp
    have hk10 : k ≤ 10000 := by omega
    rw [sendLoop_eq, if_neg (by simpa [String.isEmpty_iff] using hc),
      if_neg (by omega),
      ih (k + 1) (by omega) (peer k) (buf ++ peer k) (hp k (Nat.le_refl _) hk10)
        (fun i hi1 hi2 => hp i (by omega) hi2)]
    congr 1
    congr 1
    rw [String.length_append, List.range_succ_eq_map, List.map_cons, List.sum_cons,
      List.map_map]
    have hfun : ((fun j => (peer (k + j)).length) ∘ Nat.succ) =
        (fun j => (peer (k + 1 + j)).length) := by
      funext j
      simp only [Function.comp]
      congr 2
      omega
    rw [hfun]
    simp only [Nat.add_zero]
    omega

/-- If the peer keeps sending nonempty chunks through the first 10001 reads,
`_send_command`'s read loop stops with the overrun error after 10001 reads,
carrying the number of bytes accumulated so far (the initial chunk plus the
10000 chunks read by the loop). -/
theorem sendCommandReads_overrun (peer : Nat → String)
    (h : ∀ i, i ≤ 10000 → peer i ≠ "") :
    sendCommandReads peer =
      .error (.overrun ((peer 0).length +
        (((List.range 10000).map (fun j => (peer (1 + j)).length)).sum)) ) := by
  unfold sendCommandReads
  exact sendLoop_overrun_aux peer 10000 1 (by omega) (peer 0) (peer 0)
    (h 0 (by omega)) (fun i hi1 hi2 => h i hi2)

/-! ## A structured, well-formed `stat` response

`mkStatLines` assembles a `stat` response from its line payloads: the version
line, the `Clients:` header, client lines, a blank separator, then the
`key: value` body lines, with the `Connections:` line present iff `hasConn`. -/

def mkStatLines (hasConn : Bool) (vl : List Char) (cls : List (List Char))
    (latv recvv sentv connv outv zxv modev nodev : List Char) : String :=
  String.mk (vl ++ '\n' :: ("Clients:".data ++ '\n' :: (joinLinesL cls ++ '\n' ::
    ("Latency min/avg/max".data ++ ':' :: (latv ++ '\n' ::
      ("Received".data ++ ':' :: (recvv ++ '\n' ::
        ("Sent".data ++ ':' :: (sentv ++ '\n' ::
          ((if hasConn then "Connections".data ++ ':' :: (connv ++ ['\n']) else []) ++
            ("Outstanding".data ++ ':' :: (outv ++ '\n' ::
              ("Zxid".data ++ ':' :: (zxv ++ '\n' ::
                ("Mode".data ++ ':' :: (modev ++ '\n' ::
                  ("Node count".data ++ ':' :: (nodev ++ ['\n']))))))))))))))))))

/-- Symbolic execution of `parse_stat` on a well-formed response that carries
an explicit `Connections:` line and whose version tuple passes the
string-tuple gate: every metric, including `zookeeper.connections` taken from
the explicit line, and the zxid split. -/
theorem parse_stat_mkStat_conn
    (vl : List Char) (cls : List (List Char))
    (latv recvv sentv connv outv zxv modev nodev : List Char)
    (g1 g2 g3 : List Char) (lmin lavg lmax recvN sentN connN outN zx nodeN : Int)
    (hvl : '\n' ∉ vl)
    (hmatch : matchVersion (vl ++ ['\n']) = some (g1, g2, g3))
    (hgate : pyTuple3GE (g1, g2, g3) ("3".data, "4".data, "4".data) = true)
    (hcls : ∀ l ∈ cls, '\n' ∉ l ∧ pyStrip l ≠ [])
    (hlat1 : ':' ∉ latv) (hlat2 : '\n' ∉ latv)
    (hrecv1 : ':' ∉ recvv) (hrecv2 : '\n' ∉ recvv)
    (hsent1 : ':' ∉ sentv) (hsent2 : '\n' ∉ sentv)
    (hconn1 : ':' ∉ connv) (hconn2 : '\n' ∉ connv)
    (hout1 : ':' ∉ outv) (hout2 : '\n' ∉ outv)
    (hzx1 : ':' ∉ zxv) (hzx2 : '\n' ∉ zxv)
    (hmode1 : ':' ∉ modev) (hmode2 : '\n' ∉ modev)
    (hnode1 : ':' ∉ nodev) (hnode2 : '\n' ∉ nodev)
    (hlatv : parseLatency (latv ++ ['\n']) = .ok (lmin, lavg, lmax))
    (hrecvv : pyInt (pyStrip (recvv ++ ['\n'])) = .ok recvN)
    (hsentv : pyInt (pyStrip (sentv ++ ['\n'])) = .ok sentN)
    (hconnv : pyInt (pyStrip (connv ++ ['\n'])) = .ok connN)
    (houtv : pyInt (pyStrip (outv ++ ['\n'])) = .ok outN)
    (hzxv : pyIntHex (pyStrip (zxv ++ ['\n'])) = .ok zx)
    (hzrange : ¬(zx < -(2 ^ 63) ∨ (2 ^ 63 : Int) ≤ zx))
    (hnodev : pyInt (pyStrip (nodev ++ ['\n'])) = .ok nodeN) :
    parse_stat (mkStatLines true vl cls latv recvv sentv connv outv zxv modev nodev) =
      .ok ⟨some [("zookeeper.latency.min", lmin),
            ("zookeeper.latency.avg", lavg),
            ("zookeeper.latency.max", lmax),
            ("zookeeper.bytes_received", recvN),
            ("zookeeper.bytes_sent", sentN),
            ("zookeeper.connections", connN),
            ("zookeeper.bytes_outstanding", outN),
            ("zookeeper.outstanding_requests", outN),
            ("zookeeper.zxid.epoch", toSigned32 ((zx % (2 ^ 64 : Int)).toNat / 2 ^ 32)),
            ("zookeeper.zxid.count", toSigned32 ((zx % (2 ^ 64 : Int)).toNat % 2 ^ 32)),
            ("zookeeper.nodes", nodeN)],
        some ["mode:" ++ String.mk (pyLower (pyStrip (modev ++ ['\n'])))],
        String.mk (pyLower (pyStrip (modev ++ ['\n']))),
        some (String.mk g1 ++ "." ++ String.mk g2 ++ "." ++ String.mk g3)⟩ := by
  have hClients : ('\n' : Char) ∉ "Clients:".data := by decide
  simp only [mkStatLines, if_true, parse_stat]
  rw [pyReadline_line _ hvl, hmatch]
  simp only
  rw [pyReadline_line _ hClients, countClients_join _ hcls,
    readColonValue_line _ (by decide) hlat1 (by decide) hlat2]
  simp only [hlatv]
  rw [readColonValue_line _ (by decide) hrecv1 (by decide) hrecv2]
  simp only [hrecvv]
  rw [readColonValue_line _ (by decide) hsent1 (by decide) hsent2]
  simp only [hsentv, hgate, if_true]
  rw [append_line_assoc, readColonValue_line _ (by decide) hconn1 (by decide) hconn2]
  simp only [hconnv]
  rw [readColonValue_line _ (by decide) hout1 (by decide) hout2]
  simp only [houtv]
  rw [readColonValue_line _ (by decide) hzx1 (by decide) hzx2]
  simp only [hzxv, zxidSplit, if_neg hzrange]
  rw [readColonValue_line _ (by decide) hmode1 (by decide) hmode2]
  simp only
  rw [readColonValue_line _ (by decide) hnode1 (by decide) hnode2]
  simp only [hnodev]

/-- Symbolic execution of `parse_stat` on a well-formed response without a
`Connections:` line, whose version tuple fails the string-tuple gate:
`zookeeper.connections` is the computed client-line count. -/
theorem parse_stat_mkStat_noconn
    (vl : List Char) (cls : List (List Char))
    (latv recvv sentv outv zxv modev nodev : List Char)
    (g1 g2 g3 : List Char) (lmin lavg lmax recvN sentN outN zx nodeN : Int)
    (hvl : '\n' ∉ vl)
    (hmatch : matchVersion (vl ++ ['\n']) = some (g1, g2, g3))
    (hgate : pyTuple3GE (g1, g2, g3) ("3".data, "4".data, "4".data) = false)
    (hcls : ∀ l ∈ cls, '\n' ∉ l ∧ pyStrip l ≠ [])
    (hlat1 : ':' ∉ latv) (hlat2 : '\n' ∉ latv)
    (hrecv1 : ':' ∉ recvv) (hrecv2 : '\n' ∉ recvv)
    (hsent1 : ':' ∉ sentv) (hsent2 : '\n' ∉ sentv)
    (hout1 : ':' ∉ outv) (hout2 : '\n' ∉ outv)
    (hzx1 : ':' ∉ zxv) (hzx2 : '\n' ∉ zxv)
    (hmode1 : ':' ∉ modev) (hmode2 : '\n' ∉ modev)
    (hnode1 : ':' ∉ nodev) (hnode2 : '\n' ∉ nodev)
    (hlatv : parseLatency (latv ++ ['\n']) = .ok (lmin, lavg, lmax))
    (hrecvv : pyInt (pyStrip (recvv ++ ['\n'])) = .ok recvN)
    (hsentv : pyInt (pyStrip (sentv ++ ['\n'])) = .ok sentN)
    (houtv : pyInt (pyStrip (outv ++ ['\n'])) = .ok outN)
    (hzxv : pyIntHex (pyStrip (zxv ++ ['\n'])) = .ok zx)
    (hzrange : ¬(zx < -(2 ^ 63) ∨ (2 ^ 63 : Int) ≤ zx))
    (hnodev : pyInt (pyStrip (nodev ++ ['\n'])) = .ok nodeN) :
    parse_stat (mkStatLines false vl cls latv recvv sentv [] outv zxv modev nodev) =
      .ok ⟨some [("zookeeper.latency.min", lmin),
            ("zookeeper.latency.avg", lavg),
            ("zookeeper.latency.max", lmax),
            ("zookeeper.bytes_received", recvN),
            ("zookeeper.bytes_sent", sentN),
            ("zookeeper.connections", (cls.length : Int)),
            ("zookeeper.bytes_outstanding", outN),
            ("zookeeper.outstanding_requests", outN),
            ("zookeeper.zxid.epoch", toSigned32 ((zx % (2 ^ 64 : Int)).toNat / 2 ^ 32)),
            ("zookeeper.zxid.count", toSigned32 ((zx % (2 ^ 64 : Int)).toNat % 2 ^ 32)),
            ("zookeeper.nodes", nodeN)],
        some ["mode:" ++ String.mk (pyLower (pyStrip (modev ++ ['\n'])))],
        String.mk (pyLower (pyStrip (modev ++ ['\n']))),
        some (String.mk g1 ++ "." ++ String.mk g2 ++ "." ++ String.mk g3)⟩ := by
  have hClients : ('\n' : Char) ∉ "Clients:".data := by decide
  simp only [mkStatLines, Bool.false_eq_true, if_false, parse_stat, List.nil_append]
  rw [pyReadline_line _ hvl, hmatch]
  simp only
  rw [pyReadline_line _ hClients, countClients_join _ hcls,
    readColonValue_line _ (by decide) hlat1 (by decide) hlat2]
  simp only [hlatv]
  rw [readColonValue_line _ (by decide) hrecv1 (by decide) hrecv2]
  simp only [hrecvv]
  rw [readColonValue_line _ (by decide) hsent1 (by decide) hsent2]
  simp only [hsentv, hgate, Bool.false_eq_true, if_false, List.nil_append]
  rw [readColonValue_line _ (by decide) hout1 (by decide) hout2]
  simp only [houtv]
  rw [readColonValue_line _ (by decide) hzx1 (by decide) hzx2]
  simp only [hzxv, zxidSplit, if_neg hzrange]
  rw [readColonValue_line _ (by decide) hmode1 (by decide) hmode2]
  simp only
  rw [readColonValue_line _ (by decide) hnode1 (by decide) hnode2]
  simp only [hnodev]

/-- Symbolic execution of `parse_stat` on a well-formed response whose zxid
value is outside the signed 64-bit range: `struct.pack('>q', zxid)` raises
`struct.error`, so `parse_stat` raises instead of producing metrics. -/
theorem parse_stat_mkStat_zxerr
    (vl : List Char) (cls : List (List Char))
    (latv recvv sentv connv outv zxv modev nodev : List Char)
    (g1 g2 g3 : List Char) (lmin lavg lmax recvN sentN connN outN zx : Int)
    (hvl : '\n' ∉ vl)
    (hmatch : matchVersion (vl ++ ['\n']) = some (g1, g2, g3))
    (hgate : pyTuple3GE (g1, g2, g3) ("3".data, "4".data, "4".data) = true)
    (hcls : ∀ l ∈ cls, '\n' ∉ l ∧ pyStrip l ≠ [])
    (hlat1 : ':' ∉ latv) (hlat2 : '\n' ∉ latv)
    (hrecv1 : ':' ∉ recvv) (hrecv2 : '\n' ∉ recvv)
    (hsent1 : ':' ∉ sentv) (hsent2 : '\n' ∉ sentv)
    (hconn1 : ':' ∉ connv) (hconn2 : '\n' ∉ connv)
    (hout1 : ':' ∉ outv) (hout2 : '\n' ∉ outv)
    (hzx1 : ':' ∉ zxv) (hzx2 : '\n' ∉ zxv)
    (hlatv : parseLatency (latv ++ ['\n']) = .ok (lmin, lavg, lmax))
    (hrecvv : pyInt (pyStrip (recvv ++ ['\n'])) = .ok recvN)
    (hsentv : pyInt (pyStrip (sentv ++ ['\n'])) = .ok sentN)
    (hconnv : pyInt (pyStrip (connv ++ ['\n'])) = .ok connN)
    (houtv : pyInt (pyStrip (outv ++ ['\n'])) = .ok outN)
    (hzxv : pyIntHex (pyStrip (zxv ++ ['\n'])) = .ok zx)
    (hzrange : zx < -(2 ^ 63) ∨ (2 ^ 63 : Int) ≤ zx) :
    parse_stat (mkStatLines true vl cls latv recvv sentv connv outv zxv modev nodev) =
      .error .structError := by
  have hClients : ('\n' : Char) ∉ "Clients:".data := by decide
  simp only [mkStatLines, if_true, parse_stat]
  rw [pyReadline_line _ hvl, hmatch]
  simp only
  rw [pyReadline_line _ hClients, countClients_join _ hcls,
    readColonValue_line _ (by decide) hlat1 (by decide) hlat2]
  simp only [hlatv]
  rw [readColonValue_line _ (by decide) hrecv1 (by decide) hrecv2]
  simp only [hrecvv]
  rw [readColonValue_line _ (by decide) hsent1 (by decide) hsent2]
  simp only [hsentv, hgate, if_true]
  rw [append_line_assoc, readColonValue_line _ (by decide) hconn1 (by decide) hconn2]
  simp only [hconnv]
  rw [readColonValue_line _ (by decide) hout1 (by decide) hout2]
  simp only [houtv]
  rw [readColonValue_line _ (by decide) hzx1 (by decide) hzx2]
  simp only [hzxv, zxidSplit, if_pos hzrange]

end ZK

namespace ZK

/-! ## Concrete fixtures -/

/-- An instance with all defaults (`host` "localhost", `port` 2181, no
`expected_mode`, no tags). -/
def defaultInstance : Instance := {}

/-- The `stat` response from the module docstring (ZooKeeper 3.2.2). -/
def exampleStatBuf : String :=
  "Zookeeper version: 3.2.2--1, built on 03/16/2010 07:31 GMT\nClients:\n /10.42.114.160:32634[1](queued=0,recved=12,sent=0)\n /10.37.137.74:21873[1](queued=0,recved=53613,sent=0)\n /10.37.137.74:21876[1](queued=0,recved=57436,sent=0)\n /10.115.77.32:32990[1](queued=0,recved=16,sent=0)\n /10.37.137.74:21891[1](queued=0,recved=55011,sent=0)\n /10.37.137.74:21797[1](queued=0,recved=19431,sent=0)\n\nLatency min/avg/max: -10/0/20007\nReceived: 101032173\nSent: 0\nOutstanding: 0\nZxid: 0x1034799c7\nMode: leader\nNode count: 487\n"

/-- A well-formed `stat` response from a 3.4.5 server (with the explicit
`Connections:` line a 3.4.5 server emits). -/
def statBuf345 : String :=
  "Zookeeper version: 3.4.5--1, built on 06/29/2014 01:39 GMT\nClients:\n /10.42.114.160:32634[1](queued=0,recved=12,sent=0)\n\nLatency min/avg/max: 0/1/10\nReceived: 101\nSent: 100\nConnections: 1\nOutstanding: 0\nZxid: 0x1034799c7\nMode: leader\nNode count: 487\n"

/-- A well-formed `stat` response from a 3.4.10 server: numerically
3.4.10 ≥ 3.4.4, and the server emits the explicit `Connections:` line. -/
def statBuf3410 : String :=
  "Zookeeper version: 3.4.10-39d3a4f, built on 03/23/2017 10:13 GMT\nClients:\n /127.0.0.1:50896[1](queued=0,recved=1,sent=0)\n\nLatency min/avg/max: 0/0/0\nReceived: 101\nSent: 100\nConnections: 1\nOutstanding: 0\nZxid: 0x1034799c7\nMode: leader\nNode count: 4\n"

/-- A `stat` response whose `Latency` line has non-numeric fields, making
`parse_stat` raise `ValueError`. -/
def badLatencyStat : String :=
  "Zookeeper version: 3.4.5--1, built on 06/29/2014 01:39 GMT\nClients:\n\nLatency min/avg/max: a/b/c\nReceived: 1\nSent: 1\nConnections: 1\nOutstanding: 0\nZxid: 0x1\nMode: leader\nNode count: 1\n"

/-- The `mntr` inactive sentinel as the server actually sends it
(`println`, so newline-terminated). -/
def mntrInactiveNL : String :=
  "This ZooKeeper instance is not currently serving requests\n"

/-! ## C7 -/

/-- C7: the claim says a mntr response whose first line equals the inactive
sentinel makes `parse_mntr` return absent metrics and state `"inactive"`, and
the orchestrator emits no mntr gauges.  The code compares the raw
`readline()` result (which keeps the trailing newline) against the bare
sentinel, so the newline-terminated response the server actually sends is
missed: `parse_mntr` falls through to the key/value loop, finds no lines, and
raises `KeyError` from `metrics.pop`, which propagates out of `check`.  Only
a response that is exactly the sentinel with no trailing newline is
recognised. -/
theorem C7_inactive_sentinel :
    parse_mntr mntrInactiveNL = .error .keyError ∧
    parse_mntr "This ZooKeeper instance is not currently serving requests" =
      .ok ⟨none, "inactive"⟩ ∧
    (check defaultInstance ⟨"host1", .ok "imok", .ok statBuf345, .ok mntrInactiveNL⟩).2 =
      .error .keyError :=
  ⟨by rfl, by rfl, by rfl⟩

/-! ## C2 -/

/-- C2: the claim says every failure while fetching **or parsing** stat/mntr
is recovered locally (`unknown` state or a counter) and never aborts.  In the
code, `parse_stat` and `parse_mntr` run in the `else` clause of
`try/except/else`, so their exceptions are *not* caught: a `stat` response
with a malformed `Latency` line makes `check` propagate `ValueError` after
emitting only the `ruok` service check (no `unknown` state, no counter), and
a malformed `mntr` line propagates its exception without incrementing the
client-exception counter. -/
theorem C2_parse_exceptions_propagate :
    (check defaultInstance ⟨"host1", .ok "imok", .ok badLatencyStat, .ok ""⟩ =
      ([Event.serviceCheck "zookeeper.ruok" .ok "Response from the server: imok"
          (scTags defaultInstance)], .error .valueError)) ∧
    ((check defaultInstance ⟨"host1", .ok "imok", .ok statBuf345, .ok "ver\nbadline\n"⟩).2 =
      .error .attrError) ∧
    (Event.increment "zookeeper.datadog_client_exception" ∉
      (check defaultInstance ⟨"host1", .ok "imok", .ok statBuf345, .ok "ver\nbadline\n"⟩).1) ∧
    (Event.gauge "zookeeper.instances.unknown" 1 [] ∉
      (check defaultInstance ⟨"host1", .ok "imok", .ok badLatencyStat, .ok ""⟩).1) :=
  ⟨by rfl, by rfl, by decide, by decide⟩

/-! ## C4 -/

/-- C4 counterexample: the claim says a read overrun while fetching `stat` is
treated as a transport failure (state `down`, timeout counter).  The overrun
is a plain `Exception`, not `ZKConnectionFailure`, so the bare `except:`
clause handles it: the code increments the client-exception counter and
records `unknown`, not `down`/timeouts. -/
theorem C4_counterexample :
    Event.increment "zookeeper.timeouts" ∉
      (check defaultInstance ⟨"host1", .ok "imok", .error (.overrun 2048), .ok ""⟩).1 ∧
    Event.gauge "zookeeper.instances.down" 1 [] ∉
      (check defaultInstance ⟨"host1", .ok "imok", .error (.overrun 2048), .ok ""⟩).1 ∧
    Event.increment "zookeeper.datadog_client_exception" ∈
      (check defaultInstance ⟨"host1", .ok "imok", .error (.overrun 2048), .ok ""⟩).1 ∧
    Event.gauge "zookeeper.instances.unknown" 1 [] ∈
      (check defaultInstance ⟨"host1", .ok "imok", .error (.overrun 2048), .ok ""⟩).1 := by
  refine ⟨?_, ?_, ?_, ?_⟩ <;> decide

/-- C4 (amended): once the peer keeps sending nonempty chunks, the read loop
terminates after 10001 reads with the distinct overrun error carrying the
bytes read so far (it does not hang); and the orchestrator treats that
overrun while fetching `stat` through the generic `except:` handler —
instance state `unknown` and the client-exception counter — not as a
transport failure. -/
theorem C4_overrun_behavior :
    (∀ (peer : Nat → String), (∀ i, i ≤ 10000 → peer i ≠ "") →
      sendCommandReads peer =
        .error (.overrun ((peer 0).length +
          (((List.range 10000).map (fun j => (peer (1 + j)).length)).sum)))) ∧
    (∀ (inst : Instance) (hn : String) (n : Nat),
      statBlock inst hn (.error (.overrun n)) =
        (Event.increment "zookeeper.datadog_client_exception" ::
          set_instance_status hn "unknown", .ok none)) :=
  ⟨fun peer h => sendCommandReads_overrun peer h, fun _ _ _ => rfl⟩

theorem sum_map_const_one (n : Nat) : ((List.range n).map (fun _ => 1)).sum = n := by
  induction n with
  | zero => rfl
  | succ k ih =>
    rw [List.range_succ, List.map_append, List.sum_append, ih]
    simp

/-- A peer that answers every read with one byte and never closes. -/
def constPeerA : Nat → String := fun _ => "a"

/-- C4 witness: a peer that always sends one byte triggers the overrun with
10001 bytes read; the orchestrator classifies it as `unknown` plus the
client-exception counter. -/
theorem C4_witness :
    sendCommandReads constPeerA = .error (.overrun 10001) ∧
    statBlock defaultInstance "host1" (.error (.overrun 10001)) =
      (Event.increment "zookeeper.datadog_client_exception" ::
        set_instance_status "host1" "unknown", .ok none) := by
  constructor
  · have h := C4_overrun_behavior.1 constPeerA
      (fun i _ => show ("a" : String) ≠ "" by decide)
    have hf : (fun j => (constPeerA (1 + j)).length) = (fun (_ : Nat) => 1) := by
      funext j
      rfl
    rw [hf, sum_map_const_one 10000] at h
    exact h
  · exact C4_overrun_behavior.2 defaultInstance "host1" 10001

/-! ## C10 -/

/-- C10: a non-sentinel mntr response whose lines all split into exactly two
tokens but which contains no line whose transformed key is
`zookeeper.server.state` makes `parse_mntr` raise (`metrics.pop` with no
default raises `KeyError`) instead of returning a result. -/
theorem C10_missing_state_key (buf : String) (m : List (String × String))
    (h1 : (pyReadline buf.data).1 ≠ mntrSentinel.data)
    (h2 : buildMntr (pyLines (pyReadline buf.data).2) [] = .ok m)
    (h3 : ∀ p ∈ m, p.1 ≠ "zookeeper.server.state") :
    parse_mntr buf = .error .keyError := by
  simp only [parse_mntr]
  rw [if_neg h1, h2]
  simp only [dictPop_eq_none h3]

/-- C10 witness: a two-line response with a single well-formed metric and no
state key. -/
theorem C10_witness : parse_mntr "v\nzk_avg_latency 0\n" = .error .keyError :=
  C10_missing_state_key "v\nzk_avg_latency 0\n" [("zookeeper.avg.latency", "0")]
    (by decide) (by rfl) (by decide)

/-! ## C6 -/

/-- Is this event a gauge with value 1? -/
def isGaugeOne : Event → Bool
  | .gauge _ v _ => v == 1
  | _ => false

/-- Is this event a gauge with value 0? -/
def isGaugeZero : Event → Bool
  | .gauge _ v _ => v == 0
  | _ => false

/-- C6: for every status string, `set_instance_status` emits exactly one of
the seven `zookeeper.instances.*` gauges with value 1 and the other six with
value 0; a status outside the seven-member enum sets the `unknown` gauge
to 1. -/
theorem C6_exactly_one_gauge (hostname status : String) :
    ((set_instance_status hostname status).countP isGaugeOne = 1) ∧
    ((set_instance_status hostname status).countP isGaugeZero = 6) ∧
    (status ∉ instanceStatusNames →
      Event.gauge "zookeeper.instances.unknown" 1 [] ∈
        set_instance_status hostname status) := by
  by_cases hm : status ∈ instanceStatusNames
  · have hm2 : status = "leader" ∨ status = "follower" ∨ status = "observer" ∨
        status = "standalone" ∨ status = "down" ∨ status = "inactive" ∨
        status = "unknown" := by
      simpa [instanceStatusNames] using hm
    rcases hm2 with rfl | rfl | rfl | rfl | rfl | rfl | rfl <;>
      · refine ⟨?_, ?_, fun hno => absurd hm hno⟩ <;>
          · simp only [set_instance_status, List.countP_cons, isGaugeOne, isGaugeZero,
              Bool.false_eq_true, if_false, Nat.add_zero]
            decide
  · have hc : instanceStatusNames.contains status = false := by
      by_contra hcc
      exact hm (by simpa using List.mem_of_elem_eq_true (by simpa using hcc))
    have hig : instanceGauges status = instanceStatusNames.map (fun k =>
        ("zookeeper.instances." ++ k, if k = "unknown" then (1 : Int) else 0)) := by
      simp only [instanceGauges, hc]
      rfl
    refine ⟨?_, ?_, fun _ => ?_⟩
    · simp only [set_instance_status, hig, List.countP_cons, isGaugeOne,
        Bool.false_eq_true, if_false, Nat.add_zero]
      decide
    · simp only [set_instance_status, hig, List.countP_cons, isGaugeZero,
        Bool.false_eq_true, if_false, Nat.add_zero]
      decide
    · simp only [set_instance_status, hig]
      exact List.mem_cons_of_mem _ (by decide)

/-- C6 witness: a status outside the enum drives the `unknown` gauge. -/
theorem C6_witness :
    ((set_instance_status "host1" "borked").countP isGaugeOne = 1) ∧
    ((set_instance_status "host1" "borked").countP isGaugeZero = 6) ∧
    Event.gauge "zookeeper.instances.unknown" 1 [] ∈
      set_instance_status "host1" "borked" := by
  obtain ⟨h1, h2, h3⟩ := C6_exactly_one_gauge "host1" "borked"
  exact ⟨h1, h2, h3 (by decide)⟩

/-! ## C9 -/

/-- C9: a `stat` response whose first line does not match the version pattern
makes `parse_stat` return the sentinel `(None, None, "inactive", None)`
without raising, and `check` then emits no stat metrics and records instance
state `inactive` (and, having no version, never attempts `mntr`). -/
theorem C9_unparsable_version (buf : String) (inst : Instance) (hn : String)
    (m : Except SendErr String)
    (hv : matchVersion (pyReadline buf.data).1 = none)
    (he : inst.expected_mode = "") :
    parse_stat buf = .ok ⟨none, none, "inactive", none⟩ ∧
    check inst ⟨hn, .ok "imok", .ok buf, m⟩ =
      (Event.serviceCheck "zookeeper.ruok" .ok "Response from the server: imok"
          (scTags inst) :: set_instance_status hn "inactive", .ok ()) := by
  have hps : parse_stat buf = .ok ⟨none, none, "inactive", none⟩ := by
    simp only [parse_stat, hv]
  have himok : String.mk (pyReadline ("imok" : String).data).1 = "imok" := rfl
  have hmsg : ("Response from the server: " ++ ("imok" : String)) =
      "Response from the server: imok" := rfl
  refine ⟨hps, ?_⟩
  simp only [check, ruokBlock, statBlock, mntrBlock, hps, he, himok, hmsg,
    supportsMntr, List.nil_append, List.append_nil]
  simp

/-- C9 witness: a buffer whose first line is not a version line. -/
theorem C9_witness :
    parse_stat "bogus\n" = .ok ⟨none, none, "inactive", none⟩ ∧
    check defaultInstance ⟨"host1", .ok "imok", .ok "bogus\n", .ok ""⟩ =
      (Event.serviceCheck "zookeeper.ruok" .ok "Response from the server: imok"
          (scTags defaultInstance) :: set_instance_status "host1" "inactive", .ok ()) :=
  C9_unparsable_version "bogus\n" defaultInstance "host1" (.ok "") (by rfl) (by rfl)

/-! ## C5 -/

/-- C5: the mntr capability gate admits exactly the versions strictly greater
than 3.4.0 under ordered numeric segment comparison: `supportsMntr "3.4.5"`
is true, `"3.2.2"` and `"3.4.0"` are false; on any numeric dotted
`major.minor.patch` string the gate is the strict lexicographic numeric
comparison against `(3, 4, 0)`; and an invocation that obtained no version
from `stat` never consults the `mntr` transport at all (`check` is
independent of the mntr environment). -/
theorem C5_version_gate :
    supportsMntr (some "3.4.5") = true ∧
    supportsMntr (some "3.2.2") = false ∧
    supportsMntr (some "3.4.0") = false ∧
    supportsMntr none = false ∧
    (∀ da db dc : List Char,
      da ≠ [] → (∀ c ∈ da, isAsciiDigit c = true) →
      db ≠ [] → (∀ c ∈ db, isAsciiDigit c = true) →
      dc ≠ [] → (∀ c ∈ dc, isAsciiDigit c = true) →
      (supportsMntr (some (String.mk (da ++ '.' :: (db ++ '.' :: dc)))) = true ↔
        (3 < digitsToNat da ∨ (digitsToNat da = 3 ∧
          (4 < digitsToNat db ∨ (digitsToNat db = 4 ∧ 0 < digitsToNat dc)))))) ∧
    (∀ (inst : Instance) (hn : String) (r s m1 m2 : Except SendErr String),
      (∀ v, (statBlock inst hn s).2 ≠ .ok (some v)) →
      check inst ⟨hn, r, s, m1⟩ = check inst ⟨hn, r, s, m2⟩) := by
  refine ⟨by rfl, by rfl, by rfl, rfl,
    fun da db dc ha1 ha2 hb1 hb2 hc1 hc2 =>
      supportsMntr_iff_numeric da db dc ha1 ha2 hb1 hb2 hc1 hc2, ?_⟩
  intro inst hn r s m1 m2 hs
  simp only [check]
  rcases h1 : (ruokBlock inst r).2 with e | u
  · rfl
  · rcases h2 : (statBlock inst hn s).2 with e | ver
    · rfl
    · rcases ver with _ | v
      · simp [mntrBlock, supportsMntr]
      · exact absurd h2 (hs v)

/-- C5 witness: the numeric-comparison conjunct applied to "3.4.10" (true
under numeric ordering), and the no-version conjunct applied to a failing
stat fetch. -/
theorem C5_witness :
    (supportsMntr (some (String.mk (['3'] ++ '.' :: (['4'] ++ '.' :: ['1', '0'])))) = true ↔
      (3 < digitsToNat ['3'] ∨ (digitsToNat ['3'] = 3 ∧
        (4 < digitsToNat ['4'] ∨ (digitsToNat ['4'] = 4 ∧ 0 < digitsToNat ['1', '0']))))) ∧
    check defaultInstance ⟨"host1", .ok "imok", .error .connFailure, .ok ""⟩ =
      check defaultInstance ⟨"host1", .ok "imok", .error .connFailure,
        .error .connFailure⟩ :=
  ⟨C5_version_gate.2.2.2.2.1 ['3'] ['4'] ['1', '0'] (by decide) (by decide)
      (by decide) (by decide) (by decide) (by decide),
    C5_version_gate.2.2.2.2.2 defaultInstance "host1" (.ok "imok") (.error .connFailure)
      (.ok "") (.error .connFailure) (fun v h => by simp [statBlock] at h)⟩

/-! ## C1 -/

/-- C1 counterexample: a genuine 3.4.10 `stat` response (numerically
3.4.10 ≥ 3.4.4, and the server emits the explicit `Connections: 1` line).
The claim says the `zookeeper.connections` metric equals the explicit 1; but
the code's gate is the Python string-tuple comparison
`('3','4','10') >= ('3','4','4')`, which is false (`'10' < '4'`
lexicographically), so the `Connections:` line is not consumed, every later
line shifts by one, and `parse_stat` raises `ValueError` at the
`Node count` slot — no connections metric at all. -/
theorem C1_counterexample :
    parse_stat statBuf3410 = .error .valueError ∧
    ¬ ∃ r : StatResult, parse_stat statBuf3410 = .ok r ∧
      ∃ ms, r.metrics = some ms ∧ ("zookeeper.connections", (1 : Int)) ∈ ms := by
  refine ⟨by rfl, ?_⟩
  rintro ⟨r, hr, _⟩
  rw [show parse_stat statBuf3410 = .error .valueError from by rfl] at hr
  exact Except.noConfusion hr

/-- C1 (amended): `parse_stat` gates the `Connections:` line on the Python
string-tuple comparison `version_tuple >= ('3','4','4')` (lexicographic on
the segment strings), not on numeric ordering.  On a well-formed response
whose tuple passes the gate and which carries the explicit line, the
`zookeeper.connections` metric is the explicit integer; on one whose tuple
fails the gate and which has no such line, it is the computed count of
client lines. -/
theorem C1_connections_gate :
    (∀ (vl : List Char) (cls : List (List Char))
       (latv recvv sentv connv outv zxv modev nodev g1 g2 g3 : List Char)
       (lmin lavg lmax recvN sentN connN outN zx nodeN : Int),
      '\n' ∉ vl →
      matchVersion (vl ++ ['\n']) = some (g1, g2, g3) →
      pyTuple3GE (g1, g2, g3) ("3".data, "4".data, "4".data) = true →
      (∀ l ∈ cls, '\n' ∉ l ∧ pyStrip l ≠ []) →
      ':' ∉ latv → '\n' ∉ latv → ':' ∉ recvv → '\n' ∉ recvv →
      ':' ∉ sentv → '\n' ∉ sentv → ':' ∉ connv → '\n' ∉ connv →
      ':' ∉ outv → '\n' ∉ outv → ':' ∉ zxv → '\n' ∉ zxv →
      ':' ∉ modev → '\n' ∉ modev → ':' ∉ nodev → '\n' ∉ nodev →
      parseLatency (latv ++ ['\n']) = .ok (lmin, lavg, lmax) →
      pyInt (pyStrip (recvv ++ ['\n'])) = .ok recvN →
      pyInt (pyStrip (sentv ++ ['\n'])) = .ok sentN →
      pyInt (pyStrip (connv ++ ['\n'])) = .ok connN →
      pyInt (pyStrip (outv ++ ['\n'])) = .ok outN →
      pyIntHex (pyStrip (zxv ++ ['\n'])) = .ok zx →
      ¬(zx < -(2 ^ 63) ∨ (2 ^ 63 : Int) ≤ zx) →
      pyInt (pyStrip (nodev ++ ['\n'])) = .ok nodeN →
      ∃ ms tg md vr,
        parse_stat (mkStatLines true vl cls latv recvv sentv connv outv zxv modev nodev) =
          .ok ⟨some ms, tg, md, vr⟩ ∧
        ("zookeeper.connections", connN) ∈ ms) ∧
    (∀ (vl : List Char) (cls : List (List Char))
       (latv recvv sentv outv zxv modev nodev g1 g2 g3 : List Char)
       (lmin lavg lmax recvN sentN outN zx nodeN : Int),
      '\n' ∉ vl →
      matchVersion (vl ++ ['\n']) = some (g1, g2, g3) →
      pyTuple3GE (g1, g2, g3) ("3".data, "4".data, "4".data) = false →
      (∀ l ∈ cls, '\n' ∉ l ∧ pyStrip l ≠ []) →
      ':' ∉ latv → '\n' ∉ latv → ':' ∉ recvv → '\n' ∉ recvv →
      ':' ∉ sentv → '\n' ∉ sentv →
      ':' ∉ outv → '\n' ∉ outv → ':' ∉ zxv → '\n' ∉ zxv →
      ':' ∉ modev → '\n' ∉ modev → ':' ∉ nodev → '\n' ∉ nodev →
      parseLatency (latv ++ ['\n']) = .ok (lmin, lavg, lmax) →
      pyInt (pyStrip (recvv ++ ['\n'])) = .ok recvN →
      pyInt (pyStrip (sentv ++ ['\n'])) = .ok sentN →
      pyInt (pyStrip (outv ++ ['\n'])) = .ok outN →
      pyIntHex (pyStrip (zxv ++ ['\n'])) = .ok zx →
      ¬(zx < -(2 ^ 63) ∨ (2 ^ 63 : Int) ≤ zx) →
      pyInt (pyStrip (nodev ++ ['\n'])) = .ok nodeN →
      ∃ ms tg md vr,
        parse_stat (mkStatLines false vl cls latv recvv sentv [] outv zxv modev nodev) =
          .ok ⟨some ms, tg, md, vr⟩ ∧
        ("zookeeper.connections", (cls.length : Int)) ∈ ms) := by
  constructor
  · intro vl cls latv recvv sentv connv outv zxv modev nodev g1 g2 g3
      lmin lavg lmax recvN sentN connN outN zx nodeN
      hvl hmatch hgate hcls hl1 hl2 hr1 hr2 hs1 hs2 hc1 hc2 ho1 ho2 hz1 hz2
      hm1 hm2 hn1 hn2 hlatv hrecvv hsentv hconnv houtv hzxv hzr hnodev
    exact ⟨_, _, _, _,
      parse_stat_mkStat_conn vl cls latv recvv sentv connv outv zxv modev nodev
        g1 g2 g3 lmin lavg lmax recvN sentN connN outN zx nodeN
        hvl hmatch hgate hcls hl1 hl2 hr1 hr2 hs1 hs2 hc1 hc2 ho1 ho2 hz1 hz2
        hm1 hm2 hn1 hn2 hlatv hrecvv hsentv hconnv houtv hzxv hzr hnodev,
      by simp⟩
  · intro vl cls latv recvv sentv outv zxv modev nodev g1 g2 g3
      lmin lavg lmax recvN sentN outN zx nodeN
      hvl hmatch hgate hcls hl1 hl2 hr1 hr2 hs1 hs2 ho1 ho2 hz1 hz2
      hm1 hm2 hn1 hn2 hlatv hrecvv hsentv houtv hzxv hzr hnodev
    exact ⟨_, _, _, _,
      parse_stat_mkStat_noconn vl cls latv recvv sentv outv zxv modev nodev
        g1 g2 g3 lmin lavg lmax recvN sentN outN zx nodeN
        hvl hmatch hgate hcls hl1 hl2 hr1 hr2 hs1 hs2 ho1 ho2 hz1 hz2
        hm1 hm2 hn1 hn2 hlatv hrecvv hsentv houtv hzxv hzr hnodev,
      by simp⟩

/-- C1 witness: a 3.4.5 response whose explicit `Connections: 2` differs from
its single client line (the explicit value 2 is used), and a 3.2.2 response
with two client lines and no `Connections:` line (the computed count 2 is
used). -/
theorem C1_witness :
    (∃ ms tg md vr,
      parse_stat (mkStatLines true
        "Zookeeper version: 3.4.5--1, built on 06/29/2014 01:39 GMT".data
        [" /10.0.0.1;2181[1](queued=0)".data]
        " 0/1/10".data " 101".data " 100".data " 2".data " 0".data
        " 0x1034799c7".data " leader".data " 487".data) =
          .ok ⟨some ms, tg, md, vr⟩ ∧
      ("zookeeper.connections", (2 : Int)) ∈ ms) ∧
    (∃ ms tg md vr,
      parse_stat (mkStatLines false
        "Zookeeper version: 3.2.2--1, built on 03/16/2010 07:31 GMT".data
        [" /10.0.0.1;2181[1](queued=0)".data, " /10.0.0.2;2181[1](queued=0)".data]
        " -10/0/20007".data " 101032173".data " 0".data []
        " 0".data " 0x1034799c7".data " leader".data " 487".data) =
          .ok ⟨some ms, tg, md, vr⟩ ∧
      ("zookeeper.connections", (2 : Int)) ∈ ms) := by
  constructor
  · exact C1_connections_gate.1
      "Zookeeper version: 3.4.5--1, built on 06/29/2014 01:39 GMT".data
      [" /10.0.0.1;2181[1](queued=0)".data]
      " 0/1/10".data " 101".data " 100".data " 2".data " 0".data
      " 0x1034799c7".data " leader".data " 487".data
      "3".data "4".data "5".data 0 1 10 101 100 2 0 4349991367 487
      (by decide) (by rfl) (by rfl) (by decide)
      (by decide) (by decide) (by decide) (by decide) (by decide) (by decide)
      (by decide) (by decide) (by decide) (by decide) (by decide) (by decide)
      (by decide) (by decide) (by decide) (by decide)
      (by rfl) (by rfl) (by rfl) (by rfl) (by rfl) (by rfl) (by decide) (by rfl)
  · have h2 := C1_connections_gate.2
      "Zookeeper version: 3.2.2--1, built on 03/16/2010 07:31 GMT".data
      [" /10.0.0.1;2181[1](queued=0)".data, " /10.0.0.2;2181[1](queued=0)".data]
      " -10/0/20007".data " 101032173".data " 0".data " 0".data
      " 0x1034799c7".data " leader".data " 487".data
      "3".data "2".data "2".data (-10) 0 20007 101032173 0 0 4349991367 487
      (by decide) (by rfl) (by rfl) (by decide)
      (by decide) (by decide) (by decide) (by decide) (by decide) (by decide)
      (by decide) (by decide) (by decide) (by decide) (by decide) (by decide)
      (by decide) (by decide)
      (by rfl) (by rfl) (by rfl) (by rfl) (by rfl) (by decide) (by rfl)
    exact h2

/-! ## C3 -/

/-- C3 counterexample: the claim's own cited example is wrong.  Parsing the
documented response (zxid `0x1034799c7` = 4349991367) yields epoch 1 and
counter 55024071 (the low 32 bits, `0x034799c7`), not the claimed
55924167. -/
theorem C3_counterexample :
    ∃ ms tg md vr, parse_stat exampleStatBuf = .ok ⟨some ms, tg, md, vr⟩ ∧
      ("zookeeper.zxid.epoch", (1 : Int)) ∈ ms ∧
      ("zookeeper.zxid.count", (55024071 : Int)) ∈ ms ∧
      ("zookeeper.zxid.count", (55924167 : Int)) ∉ ms := by
  refine ⟨[("zookeeper.latency.min", -10), ("zookeeper.latency.avg", 0),
    ("zookeeper.latency.max", 20007), ("zookeeper.bytes_received", 101032173),
    ("zookeeper.bytes_sent", 0), ("zookeeper.connections", 6),
    ("zookeeper.bytes_outstanding", 0), ("zookeeper.outstanding_requests", 0),
    ("zookeeper.zxid.epoch", 1), ("zookeeper.zxid.count", 55024071),
    ("zookeeper.nodes", 487)], ["mode:leader"], "leader", some "3.2.2",
    by rfl, by decide, by decide, by decide⟩

/-- C3 (amended): for zxid values in [0, 2^63), `parse_stat` splits the value
into `zookeeper.zxid.epoch` (the high 4 bytes) and `zookeeper.zxid.count`
(the low 4 bytes read as a signed big-endian 32-bit integer); for values in
[2^63, 2^64), `struct.pack('>q', zxid)` raises `struct.error` and
`parse_stat` raises instead of decomposing.  The documented example
`0x1034799c7` gives epoch 1 and counter 55024071. -/
theorem C3_zxid_split :
    (∀ (vl : List Char) (cls : List (List Char))
       (latv recvv sentv connv outv zxv modev nodev g1 g2 g3 : List Char)
       (lmin lavg lmax recvN sentN connN outN zx nodeN : Int),
      '\n' ∉ vl →
      matchVersion (vl ++ ['\n']) = some (g1, g2, g3) →
      pyTuple3GE (g1, g2, g3) ("3".data, "4".data, "4".data) = true →
      (∀ l ∈ cls, '\n' ∉ l ∧ pyStrip l ≠ []) →
      ':' ∉ latv → '\n' ∉ latv → ':' ∉ recvv → '\n' ∉ recvv →
      ':' ∉ sentv → '\n' ∉ sentv → ':' ∉ connv → '\n' ∉ connv →
      ':' ∉ outv → '\n' ∉ outv → ':' ∉ zxv → '\n' ∉ zxv →
      ':' ∉ modev → '\n' ∉ modev → ':' ∉ nodev → '\n' ∉ nodev →
      parseLatency (latv ++ ['\n']) = .ok (lmin, lavg, lmax) →
      pyInt (pyStrip (recvv ++ ['\n'])) = .ok recvN →
      pyInt (pyStrip (sentv ++ ['\n'])) = .ok sentN →
      pyInt (pyStrip (connv ++ ['\n'])) = .ok connN →
      pyInt (pyStrip (outv ++ ['\n'])) = .ok outN →
      pyIntHex (pyStrip (zxv ++ ['\n'])) = .ok zx →
      0 ≤ zx → zx < 2 ^ 63 →
      pyInt (pyStrip (nodev ++ ['\n'])) = .ok nodeN →
      ∃ ms tg md vr,
        parse_stat (mkStatLines true vl cls latv recvv sentv connv outv zxv modev nodev) =
          .ok ⟨some ms, tg, md, vr⟩ ∧
        ("zookeeper.zxid.epoch", toSigned32 (zx.toNat / 2 ^ 32)) ∈ ms ∧
        ("zookeeper.zxid.count", toSigned32 (zx.toNat % 2 ^ 32)) ∈ ms) ∧
    (∀ (vl : List Char) (cls : List (List Char))
       (latv recvv sentv connv outv zxv modev nodev g1 g2 g3 : List Char)
       (lmin lavg lmax recvN sentN connN outN zx : Int),
      '\n' ∉ vl →
      matchVersion (vl ++ ['\n']) = some (g1, g2, g3) →
      pyTuple3GE (g1, g2, g3) ("3".data, "4".data, "4".data) = true →
      (∀ l ∈ cls, '\n' ∉ l ∧ pyStrip l ≠ []) →
      ':' ∉ latv → '\n' ∉ latv → ':' ∉ recvv → '\n' ∉ recvv →
      ':' ∉ sentv → '\n' ∉ sentv → ':' ∉ connv → '\n' ∉ connv →
      ':' ∉ outv → '\n' ∉ outv → ':' ∉ zxv → '\n' ∉ zxv →
      ':' ∉ modev → '\n' ∉ modev → ':' ∉ nodev → '\n' ∉ nodev →
      parseLatency (latv ++ ['\n']) = .ok (lmin, lavg, lmax) →
      pyInt (pyStrip (recvv ++ ['\n'])) = .ok recvN →
      pyInt (pyStrip (sentv ++ ['\n'])) = .ok sentN →
      pyInt (pyStrip (connv ++ ['\n'])) = .ok connN →
      pyInt (pyStrip (outv ++ ['\n'])) = .ok outN →
      pyIntHex (pyStrip (zxv ++ ['\n'])) = .ok zx →
      (2 ^ 63 : Int) ≤ zx → zx < 2 ^ 64 →
      parse_stat (mkStatLines true vl cls latv recvv sentv connv outv zxv modev nodev) =
        .error .structError) := by
  constructor
  · intro vl cls latv recvv sentv connv outv zxv modev nodev g1 g2 g3
      lmin lavg lmax recvN sentN connN outN zx nodeN
      hvl hmatch hgate hcls hl1 hl2 hr1 hr2 hs1 hs2 hc1 hc2 ho1 ho2 hz1 hz2
      hm1 hm2 hn1 hn2 hlatv hrecvv hsentv hconnv houtv hzxv h0 hlt hnodev
    have hmaster := parse_stat_mkStat_conn vl cls latv recvv sentv connv outv zxv modev nodev
      g1 g2 g3 lmin lavg lmax recvN sentN connN outN zx nodeN
      hvl hmatch hgate hcls hl1 hl2 hr1 hr2 hs1 hs2 hc1 hc2 ho1 ho2 hz1 hz2
      hm1 hm2 hn1 hn2 hlatv hrecvv hsentv hconnv houtv hzxv (by omega) hnodev
    have hmod : zx % (2 ^ 64 : Int) = zx := Int.emod_eq_of_lt h0 (by omega)
    rw [hmod] at hmaster
    exact ⟨_, _, _, _, hmaster, by simp, by simp⟩
  · intro vl cls latv recvv sentv connv outv zxv modev nodev g1 g2 g3
      lmin lavg lmax recvN sentN connN outN zx
      hvl hmatch hgate hcls hl1 hl2 hr1 hr2 hs1 hs2 hc1 hc2 ho1 ho2 hz1 hz2
      hm1 hm2 hn1 hn2 hlatv hrecvv hsentv hconnv houtv hzxv hge _
    exact parse_stat_mkStat_zxerr vl cls latv recvv sentv connv outv zxv modev nodev
      g1 g2 g3 lmin lavg lmax recvN sentN connN outN zx
      hvl hmatch hgate hcls hl1 hl2 hr1 hr2 hs1 hs2 hc1 hc2 ho1 ho2 hz1 hz2
      hlatv hrecvv hsentv hconnv houtv hzxv (Or.inr hge)

/-- C3 witness: the documented zxid `0x1034799c7` decomposes to (1, 55024071)
through the in-range conjunct, and `0x8000000000000000` (= 2^63) makes
`parse_stat` raise through the out-of-range conjunct. -/
theorem C3_witness :
    (∃ ms tg md vr,
      parse_stat (mkStatLines true
        "Zookeeper version: 3.4.5--1, built on 06/29/2014 01:39 GMT".data
        [" /10.0.0.1;2181[1](queued=0)".data]
        " 0/1/10".data " 101".data " 100".data " 1".data " 0".data
        " 0x1034799c7".data " leader".data " 487".data) =
          .ok ⟨some ms, tg, md, vr⟩ ∧
      ("zookeeper.zxid.epoch", (1 : Int)) ∈ ms ∧
      ("zookeeper.zxid.count", (55024071 : Int)) ∈ ms) ∧
    parse_stat (mkStatLines true
        "Zookeeper version: 3.4.5--1, built on 06/29/2014 01:39 GMT".data
        [" /10.0.0.1;2181[1](queued=0)".data]
        " 0/1/10".data " 101".data " 100".data " 1".data " 0".data
        " 0x8000000000000000".data " leader".data " 487".data) =
      .error .structError := by
  constructor
  · exact C3_zxid_split.1
      "Zookeeper version: 3.4.5--1, built on 06/29/2014 01:39 GMT".data
      [" /10.0.0.1;2181[1](queued=0)".data]
      " 0/1/10".data " 101".data " 100".data " 1".data " 0".data
      " 0x1034799c7".data " leader".data " 487".data
      "3".data "4".data "5".data 0 1 10 101 100 1 0 4349991367 487
      (by decide) (by rfl) (by rfl) (by decide)
      (by decide) (by decide) (by decide) (by decide) (by decide) (by decide)
      (by decide) (by decide) (by decide) (by decide) (by decide) (by decide)
      (by decide) (by decide) (by decide) (by decide)
      (by rfl) (by rfl) (by rfl) (by rfl) (by rfl) (by rfl)
      (by decide) (by decide) (by rfl)
  · exact C3_zxid_split.2
      "Zookeeper version: 3.4.5--1, built on 06/29/2014 01:39 GMT".data
      [" /10.0.0.1;2181[1](queued=0)".data]
      " 0/1/10".data " 101".data " 100".data " 1".data " 0".data
      " 0x8000000000000000".data " leader".data " 487".data
      "3".data "4".data "5".data 0 1 10 101 100 1 0 9223372036854775808
      (by decide) (by rfl) (by rfl) (by decide)
      (by decide) (by decide) (by decide) (by decide) (by decide) (by decide)
      (by decide) (by decide) (by decide) (by decide) (by decide) (by decide)
      (by decide) (by decide) (by decide) (by decide)
      (by rfl) (by rfl) (by rfl) (by rfl) (by rfl) (by rfl)
      (by decide) (by decide)

/-! ## C8 -/

/-- Modelled from the spec: "replace the literal prefix-token `zk` with
`zookeeper`" (prefix only), then every underscore with a period. -/
def specPrefixKeyTransform (k : List Char) : List Char :=
  replaceUnderscore
    (match k with
      | 'z' :: 'k' :: rest => "zookeeper".data ++ rest
      | other => other)

/-- C8 counterexample: the code replaces **every** occurrence of the
substring `zk` (Python `str.replace`), not just a prefix token.  On the key
`xzk_y` the code produces `xzookeeper.y`, while the claim's prefix rule gives
`xzk.y`. -/
theorem C8_counterexample :
    parse_mntr "foo\nxzk_y 5\nzk_server_state LEADER\n" =
      .ok ⟨some [("xzookeeper.y", 5)], "leader"⟩ ∧
    specPrefixKeyTransform "xzk_y".data = "xzk.y".data ∧
    mntrKeyTransform "xzk_y".data = "xzookeeper.y".data ∧
    specPrefixKeyTransform "xzk_y".data ≠ mntrKeyTransform "xzk_y".data :=
  ⟨by rfl, by rfl, by rfl, by decide⟩

theorem line_append_newline_ne_sentinel (l : List Char) :
    l ++ ['\n'] ≠ mntrSentinel.data := by
  intro h
  have hm : '\n' ∈ mntrSentinel.data := by
    rw [← h]
    simp
  exact absurd hm (by decide)

theorem dictSet_nil (k v : String) : dictSet [] k v = [(k, v)] := rfl

theorem dictSet_single_ne (k1 v1 k v : String) (h : k1 ≠ k) :
    dictSet [(k1, v1)] k v = [(k1, v1), (k, v)] := by
  simp [dictSet, h]

theorem dictPop_second (k1 v1 k v : String) (h : k1 ≠ k) :
    dictPop [(k1, v1), (k, v)] k = some (v, [(k1, v1)]) := by
  simp [dictPop, List.find?, List.filter, h]

/-- C8 (amended): `parse_mntr` transforms each key by replacing every
occurrence of the substring `zk` with `zookeeper` and every underscore with
a period (so `zk_avg_latency` → `zookeeper.avg.latency` and
`zk_server_state` → `zookeeper.server.state`); the `zookeeper.server.state`
entry is lower-cased, removed from the metrics, and returned as the state;
every remaining value is converted to an integer; and a line that does not
split into exactly two whitespace-separated tokens raises. -/
theorem C8_key_transform :
    (mntrKeyTransform "zk_avg_latency".data = "zookeeper.avg.latency".data ∧
      mntrKeyTransform "zk_server_state".data = "zookeeper.server.state".data) ∧
    (∀ (first k v : List Char) (n : Int),
      '\n' ∉ first → k ≠ [] → v ≠ [] →
      (∀ c ∈ k, pyIsSpace c = false) → (∀ c ∈ v, pyIsSpace c = false) →
      String.mk (mntrKeyTransform k) ≠ "zookeeper.server.state" →
      pyInt v = .ok n →
      parse_mntr (String.mk (first ++ '\n' :: ((k ++ ' ' :: v) ++ '\n' ::
          ("zk_server_state LEADER".data ++ '\n' :: [])))) =
        .ok ⟨some [(String.mk (mntrKeyTransform k), n)], "leader"⟩) ∧
    (∀ (first l rest : List Char),
      '\n' ∉ first → '\n' ∉ l → (pySplitWs (l ++ ['\n'])).length ≠ 2 →
      parse_mntr (String.mk (first ++ '\n' :: (l ++ '\n' :: rest))) =
        .error .attrError) := by
  refine ⟨⟨by rfl, by rfl⟩, ?_, ?_⟩
  · intro first k v n hf hk hv hkw hvw hne hint
    have hknl : '\n' ∉ k := fun hm => by
      have := hkw _ hm
      simp [pyIsSpace] at this
    have hvnl : '\n' ∉ v := fun hm => by
      have := hvw _ hm
      simp [pyIsSpace] at this
    have hline1 : '\n' ∉ (k ++ ' ' :: v) := by
      intro hm
      rcases List.mem_append.1 hm with hm | hm
      · exact hknl hm
      · rcases List.mem_cons.1 hm with hm | hm
        · exact absurd hm.symm (by decide)
        · exact hvnl hm
    have hsplit1 : pySplitWs ((k ++ ' ' :: v) ++ ['\n']) = [k, v] := by
      rw [List.append_assoc, List.cons_append]
      exact pySplitWs_kv hk hv hkw hvw
    have hsplit2 : pySplitWs ("zk_server_state LEADER".data ++ ['\n']) =
        ["zk_server_state".data, "LEADER".data] := by rfl
    have hst : String.mk (mntrKeyTransform "zk_server_state".data) =
        "zookeeper.server.state" := rfl
    have hld : String.mk ("LEADER".data) = "LEADER" := rfl
    have hbuild : buildMntr [(k ++ ' ' :: v) ++ ['\n'],
        "zk_server_state LEADER".data ++ ['\n']] [] =
        .ok [(String.mk (mntrKeyTransform k), String.mk v),
          ("zookeeper.server.state", "LEADER")] := by
      simp only [buildMntr, hsplit1, hsplit2, hst, hld]
      rw [dictSet_nil, dictSet_single_ne _ _ _ _ hne]
    simp only [parse_mntr]
    rw [pyReadline_line _ hf, if_neg (line_append_newline_ne_sentinel first)]
    rw [pyLines_line _ hline1, pyLines_line _ (by decide)]
    simp only [pyLines, hbuild]
    rw [dictPop_second _ _ _ _ hne]
    simp only [List.mapM, List.mapM.loop, bind, Except.bind, Except.map, hint]
    rfl
  · intro first l rest hf hl hlen
    simp only [parse_mntr]
    rw [pyReadline_line _ hf, if_neg (line_append_newline_ne_sentinel first)]
    rw [pyLines_line _ hl]
    rcases hsp : pySplitWs (l ++ ['\n']) with _ | ⟨a, _ | ⟨b, _ | ⟨c, more⟩⟩⟩
    · simp [buildMntr, hsp]
    · simp [buildMntr, hsp]
    · rw [hsp] at hlen
      simp at hlen
    · simp [buildMntr, hsp]

/-- C8 witness: the general conjuncts applied to the key `zk_min_latency`
(value 7) and to a one-token line. -/
theorem C8_witness :
    parse_mntr (String.mk ("foo".data ++ '\n' ::
        (("zk_min_latency".data ++ ' ' :: "7".data) ++ '\n' ::
          ("zk_server_state LEADER".data ++ '\n' :: [])))) =
      .ok ⟨some [(String.mk (mntrKeyTransform "zk_min_latency".data), 7)], "leader"⟩ ∧
    parse_mntr (String.mk ("foo".data ++ '\n' ::
        ("justonetoken".data ++ '\n' :: []))) = .error .attrError :=
  ⟨C8_key_transform.2.1 "foo".data "zk_min_latency".data "7".data 7
      (by decide) (by decide) (by decide) (by decide) (by decide)
      (by decide) (by rfl),
    C8_key_transform.2.2 "foo".data "justonetoken".data [] (by decide) (by decide)
      (by decide)⟩

end ZK
